import Mathlib

/-!
Verification of the SnapTest test-synthesis engine (the `generateTest` /
`generateTestSuite` pipeline of the combined SnapTest provider file).

The TypeScript source is shallowly embedded: every definition below mirrors a
function or data shape of the source file.  Two host primitives of the browser
runtime are not code of this repository and are modelled as parameters:

* `new URL(s)` (WHATWG URL parsing) is modelled by a parameter
  `up : UrlParse`, returning the `pathname`/`search` split on success and
  `none` when the URL cannot be parsed (in which case the source constructor
  throws a `TypeError`);
* `new Date(s).getTime()` (host date parsing, used only to normalize
  interaction-event timestamps to epoch milliseconds) is modelled by a
  parameter `norm : String → Int`.

JavaScript exceptions are modelled with `Except`; `Infinity` (used only for
the `validUntil` field) is modelled by `Option Int` with `none` for
`Infinity`.  `Array.prototype.sort` with the comparator
`(a, b) => a.timestamp - b.timestamp` is a stable sort (ECMAScript 2019), so
it is embedded as `List.mergeSort` with the total preorder
`a.timestamp ≤ b.timestamp`.
-/

/-- Result of the WHATWG `new URL` constructor, restricted to the two fields
the source reads: `url.pathname` and `url.search`. -/
structure UrlParts where
  pathname : String
  search : String
deriving Repr, DecidableEq

/-- Model of the host `new URL` constructor: `none` models the thrown
`TypeError` on an unparsable URL. -/
def UrlParse : Type := String → Option UrlParts

/-- JavaScript exceptions that the embedded pipeline can raise.  The only
`throw` site reachable from `generateTest` is the `new URL` constructor. -/
inductive GenError where
  | malformedNetworkURL (url : String)
deriving Repr, DecidableEq

/-- JSON values, the model of the `unknown` response `data` carried by
recorded network events (the recorder stores parsed JSON, or a raw string
when the body is not valid JSON).  Numbers are modelled as integers. -/
inductive JsonValue where
  | null : JsonValue
  | bool (b : Bool) : JsonValue
  | num (n : Int) : JsonValue
  | str (s : String) : JsonValue
  | arr (elems : List JsonValue) : JsonValue
  | obj (fields : List (String × JsonValue)) : JsonValue
deriving Repr

/-- One escaped character of a JSON string literal, as produced by the host
`JSON.stringify` on strings. -/
def jsonEscapeChar (c : Char) : String :=
  if c = '"' then "\\\""
  else if c = '\\' then "\\\\"
  else if c = '\n' then "\\n"
  else if c = '\r' then "\\r"
  else if c = '\t' then "\\t"
  else if c = Char.ofNat 8 then "\\b"
  else if c = Char.ofNat 12 then "\\f"
  else if c.toNat < 32 then
    "\\u00" ++ String.singleton (Char.ofNat (if c.toNat / 16 < 10 then 48 + c.toNat / 16 else 87 + c.toNat / 16))
      ++ String.singleton (Char.ofNat (if c.toNat % 16 < 10 then 48 + c.toNat % 16 else 87 + c.toNat % 16))
  else String.singleton c

/-- `JSON.stringify` applied to a string value. -/
def jsonQuote (s : String) : String :=
  s.foldl (fun acc c => acc ++ jsonEscapeChar c) "\"" ++ "\""

/-- `JSON.stringify` applied to `string | null` (the recorded request body):
`null` serializes to the four characters `null`. -/
def jsonQuoteOpt : Option String → String
  | none => "null"
  | some s => jsonQuote s

mutual

/-- Pretty-printing `JSON.stringify(v, null, gap.length)`: `gap` is the
indentation unit, `cur` the indentation accumulated by enclosing values. -/
def jsonStr (gap cur : String) : JsonValue → String
  | .null => "null"
  | .bool true => "true"
  | .bool false => "false"
  | .num n => toString n
  | .str s => jsonQuote s
  | .arr [] => "[]"
  | .arr (x :: xs) =>
    "[\n" ++ jsonItems gap (cur ++ gap) (x :: xs) ++ "\n" ++ cur ++ "]"
  | .obj [] => "\x7b\x7d"
  | .obj (f :: fs) =>
    "\x7b\n" ++ jsonFields gap (cur ++ gap) (f :: fs) ++ "\n" ++ cur ++ "\x7d"

/-- Array members of a pretty-printed JSON value, separated by `,\n`. -/
def jsonItems (gap cur : String) : List JsonValue → String
  | [] => ""
  | [x] => cur ++ jsonStr gap cur x
  | x :: y :: xs =>
    cur ++ jsonStr gap cur x ++ ",\n" ++ jsonItems gap cur (y :: xs)

/-- Object members of a pretty-printed JSON value, separated by `,\n`. -/
def jsonFields (gap cur : String) : List (String × JsonValue) → String
  | [] => ""
  | [kv] => cur ++ jsonQuote kv.1 ++ ": " ++ jsonStr gap cur kv.2
  | kv :: g :: fs =>
    cur ++ jsonQuote kv.1 ++ ": " ++ jsonStr gap cur kv.2 ++ ",\n" ++ jsonFields gap cur (g :: fs)

end

/-- `JSON.stringify(v, null, n)` where `v` may be the JS `undefined`
(modelled by `none`): interpolating `undefined` into a template yields the
string `undefined`. -/
def stringifyIndent (n : Nat) : Option JsonValue → String
  | none => "undefined"
  | some v => jsonStr (String.mk (List.replicate n ' ')) "" v

/-- Template interpolation of an optional integer (`${handler.status}`):
`undefined` renders as the string `undefined`. -/
def optIntStr : Option Int → String
  | none => "undefined"
  | some n => toString n

/-- JavaScript `x || d` for a possibly-absent string `x`: the empty string is
falsy, so both `undefined` and `""` fall through to the default. -/
def jsOrStr (x : Option String) (d : String) : String :=
  match x with
  | none => d
  | some s => if s = "" then d else s

/-- The `id: string | number` field of recorded events. -/
inductive EvId where
  | str (s : String) : EvId
  | num (n : Int) : EvId
deriving Repr, DecidableEq

/-- JavaScript `id.toString()` on a `string | number` id. -/
def EvId.render : EvId → String
  | .str s => s
  | .num n => toString n

/-- The `type` discriminator of an `EventHistoryItem`. -/
inductive InterType where
  | click
  | assertion
  | keyboard
deriving Repr, DecidableEq

/-- The `type` discriminator of a `NetworkHistoryItem`. -/
inductive NetType where
  | networkRequest
  | networkResponse
  | networkError
deriving Repr, DecidableEq

/-- The `request` part of a recorded network event: `body: string | null`. -/
structure ReqBody where
  body : Option String
deriving Repr

/-- The `response` part of a recorded network event: parsed `data` plus an
optional headers record. -/
structure RespData where
  data : JsonValue
  headers : Option (List (String × JsonValue))
deriving Repr

/-- `NetworkHistoryItem` of the source: one recorded network event. -/
structure NetworkHistoryItem where
  id : String
  type : NetType
  method : Option String
  url : String
  timestamp : Int
  status : Option Int
  request : Option ReqBody
  response : Option RespData
  error : Option String
deriving Repr

/-- `EventHistoryItem` of the source: one recorded interaction event.  The
`timestamp` is an ISO date string produced by `new Date().toISOString()`. -/
structure EventHistoryItem where
  id : EvId
  timestamp : String
  testId : String
  elementText : String
  tagName : String
  elementType : Option String
  type : InterType
  key : Option String
  code : Option String
  ctrlKey : Option Bool
  shiftKey : Option Bool
  altKey : Option Bool
  metaKey : Option Bool
  keyboardSequence : Option String
deriving Repr

/-- The `type` discriminator of a `CombinedEvent`. -/
inductive CEType where
  | click
  | assertion
  | keyboard
  | networkRequest
  | networkResponse
  | networkError
deriving Repr, DecidableEq

/-- Widening of an interaction event type into the combined union. -/
def InterType.toCE : InterType → CEType
  | .click => .click
  | .assertion => .assertion
  | .keyboard => .keyboard

/-- Widening of a network event type into the combined union. -/
def NetType.toCE : NetType → CEType
  | .networkRequest => .networkRequest
  | .networkResponse => .networkResponse
  | .networkError => .networkError

/-- `CombinedEvent` of the source: the tagged union built by the merger. -/
structure CombinedEvent where
  id : EvId
  timestamp : Int
  testId : String
  elementText : String
  tagName : String
  elementType : Option String
  type : CEType
  method : Option String
  url : Option String
  request : Option ReqBody
  response : Option RespData
  status : Option Int
  error : Option String
  key : Option String
  code : Option String
  ctrlKey : Option Bool
  shiftKey : Option Bool
  altKey : Option Bool
  metaKey : Option Bool
  keyboardSequence : Option String
deriving Repr

/-- The merger's mapping of an interaction event (`...event` spread plus
timestamp normalization `new Date(event.timestamp).getTime()`, modelled by
`norm`). -/
def interToCombined (norm : String → Int) (e : EventHistoryItem) : CombinedEvent where
  id := e.id
  timestamp := norm e.timestamp
  testId := e.testId
  elementText := e.elementText
  tagName := e.tagName
  elementType := e.elementType
  type := e.type.toCE
  method := none
  url := none
  request := none
  response := none
  status := none
  error := none
  key := e.key
  code := e.code
  ctrlKey := e.ctrlKey
  shiftKey := e.shiftKey
  altKey := e.altKey
  metaKey := e.metaKey
  keyboardSequence := e.keyboardSequence

/-- The merger's mapping of a network event (explicit field list of the
source, with `id: event.id.toString()` and blank interaction fields). -/
def netToCombined (e : NetworkHistoryItem) : CombinedEvent where
  id := .str e.id
  timestamp := e.timestamp
  testId := ""
  elementText := ""
  tagName := ""
  elementType := none
  type := e.type.toCE
  method := e.method
  url := some e.url
  request := e.request
  response := e.response
  status := e.status
  error := e.error
  key := none
  code := none
  ctrlKey := none
  shiftKey := none
  altKey := none
  metaKey := none
  keyboardSequence := none

/-- Timestamp comparison used by the merger's stable sort. -/
def tsLE (a b : CombinedEvent) : Bool :=
  decide (a.timestamp ≤ b.timestamp)

/-- The Event Merger: concatenate the mapped interaction events with the
mapped network events and stable-sort by timestamp ascending
(`.sort((a, b) => a.timestamp - b.timestamp)`). -/
def mergeEvents (norm : String → Int) (eventHistory : List EventHistoryItem)
    (networkHistory : List NetworkHistoryItem) : List CombinedEvent :=
  (eventHistory.map (interToCombined norm) ++ networkHistory.map netToCombined).mergeSort tsLE

/-- JavaScript `event.request?.body || null`: the body is `null` unless a
request part with a truthy (non-empty) body string was recorded.  In
particular a recorded *empty* body string collapses to `null`. -/
def jsBody : Option ReqBody → Option String
  | none => none
  | some r =>
    match r.body with
    | none => none
    | some s => if s = "" then none else some s

/-- The deduplication key of `generateMSWHandlers`:
`` `${method}-${fullPath}-${JSON.stringify(requestBody)}` `` where `method`
is `event.method || 'GET'` (not lowercased) and `fullPath` is
`url.pathname + url.search`. -/
def dedupKeyOf (method fullPath : String) (requestBody : Option String) : String :=
  method ++ "-" ++ fullPath ++ "-" ++ jsonQuoteOpt requestBody

/-- The record stored per deduplication key by `generateMSWHandlers`. -/
structure HandlerRec where
  method : String
  fullPath : String
  requestBody : Option String
  status : Option Int
  data : Option JsonValue
  headers : List (String × JsonValue)
deriving Repr

/-- The handler record built from one `network-response` event whose URL
parsed into `parts`. -/
def mkHandlerRec (e : NetworkHistoryItem) (parts : UrlParts) : HandlerRec where
  method := (jsOrStr e.method "GET").toLower
  fullPath := parts.pathname ++ parts.search
  requestBody := jsBody e.request
  status := e.status
  data := e.response.map (·.data)
  headers := match e.response with
    | some r => r.headers.getD []
    | none => []

/-- The deduplication key of one `network-response` event, `none` when the
event is not a response or its URL does not parse. -/
def respKey (up : UrlParse) (e : NetworkHistoryItem) : Option String :=
  if e.type = .networkResponse then
    (up e.url).map fun parts =>
      dedupKeyOf (jsOrStr e.method "GET") (parts.pathname ++ parts.search) (jsBody e.request)
  else none

/-- The `defaultHandlers` map of `generateMSWHandlers`: a `forEach` over the
network history that, for each `network-response` event, parses its URL
(throwing on failure), computes the dedup key, and stores the first record
seen for that key.  JS `Map` iterates in insertion order, so the map is an
association list extended at the tail. -/
def buildDefaultHandlers (up : UrlParse) :
    List NetworkHistoryItem → List (String × HandlerRec) →
    Except GenError (List (String × HandlerRec))
  | [], acc => .ok acc
  | e :: rest, acc =>
    if e.type = .networkResponse then
      match up e.url with
      | none => .error (.malformedNetworkURL e.url)
      | some parts =>
        let key := dedupKeyOf (jsOrStr e.method "GET") (parts.pathname ++ parts.search) (jsBody e.request)
        if (acc.lookup key).isSome then
          buildDefaultHandlers up rest acc
        else
          buildDefaultHandlers up rest (acc ++ [(key, mkHandlerRec e parts)])
    else
      buildDefaultHandlers up rest acc

/-- The methods that conventionally carry a body
(`['post', 'put', 'patch'].includes(handler.method)`). -/
def bodyMethods : List String := ["post", "put", "patch"]

/-- Whether `generateMSWHandlers` emits the body-matching handler shape for a
record (`handler.requestBody !== null && ['post','put','patch'].includes(handler.method)`). -/
def recHasBody (rec : HandlerRec) : Bool :=
  rec.requestBody.isSome && bodyMethods.contains rec.method

/-- Source text of the body-matching MSW handler emitted for one record with
recorded body `b` (the first template of `generateMSWHandlers`). -/
def renderHandlerBody (rec : HandlerRec) (b : String) : String :=
  "\n  rest." ++ rec.method ++ "('*" ++ rec.fullPath ++ "', async (req, res, ctx) => \x7b\n    const body = await req.text()\n    if (body === " ++ jsonQuote b ++ ") \x7b\n      return res(\n        ctx.status(" ++ optIntStr rec.status ++ "),\n        ctx.json(" ++ stringifyIndent 4 rec.data ++ ")\n      )\n    \x7d\n    return res(ctx.status(400), ctx.text('Request body mismatch'))\n  \x7d)"

/-- Source text of the unconditional MSW handler emitted for one record (the
second template of `generateMSWHandlers`). -/
def renderHandlerPlain (rec : HandlerRec) : String :=
  "\n  rest." ++ rec.method ++ "('*" ++ rec.fullPath ++ "', (req, res, ctx) => \x7b\n    return res(\n      ctx.status(" ++ optIntStr rec.status ++ "),\n      ctx.json(" ++ stringifyIndent 4 rec.data ++ ")\n    )\n  \x7d)"

/-- Source text of the MSW handler emitted for one deduplicated record. -/
def renderHandler (rec : HandlerRec) : String :=
  match rec.requestBody with
  | some b =>
    if bodyMethods.contains rec.method then renderHandlerBody rec b
    else renderHandlerPlain rec
  | none => renderHandlerPlain rec

/-- The Mock Handler Synthesizer `generateMSWHandlers`: build the
deduplication map, render one handler per entry, and wrap them in the
importable module text. -/
def generateMSWHandlers (up : UrlParse) (networkHistory : List NetworkHistoryItem) :
    Except GenError String :=
  (buildDefaultHandlers up networkHistory []).map fun m =>
    "import \x7b rest \x7d from 'msw'\n\nexport const handlers = [" ++
      String.intercalate "," (m.map fun kv => renderHandler kv.2) ++ "\n]"

/-- The reply of an emitted MSW handler: a JSON reply carrying the recorded
status and data, or a plain-text reply (used for the 400 mismatch branch). -/
inductive MockReply where
  | json (status : Option Int) (data : Option JsonValue) : MockReply
  | text (status : Int) (body : String) : MockReply
deriving Repr

/-- Run-time behaviour of the handler source emitted for a record, as a
function of the incoming request body text: the body-matching shape compares
the incoming body against the recorded one and replies 400 `Request body
mismatch` on inequality; the unconditional shape ignores the body. -/
def handlerFn (rec : HandlerRec) (incoming : String) : MockReply :=
  match rec.requestBody with
  | some b =>
    if bodyMethods.contains rec.method then
      if incoming = b then .json rec.status rec.data
      else .text 400 "Request body mismatch"
    else .json rec.status rec.data
  | none => .json rec.status rec.data

/-- `NetworkState` of the source.  `validUntil` is an `Option Int` with
`none` modelling `Infinity`. -/
structure NetworkState where
  clickEventId : Option String
  networkEvents : List CombinedEvent
  validUntil : Option Int
deriving Repr

/-- `event.type === 'click'` on a combined event. -/
def isClick (e : CombinedEvent) : Bool :=
  e.type = .click

/-- `event.type === 'network-response'` on a combined event. -/
def isResponse (e : CombinedEvent) : Bool :=
  e.type = .networkResponse

/-- Accumulator of the correlation loop of `correlateNetworkStates`. -/
structure CorrAcc where
  currentClick : Option CombinedEvent
  currentNetworkEvents : List CombinedEvent
  initialNetworkEvents : List CombinedEvent
  networkStates : List NetworkState
deriving Repr

/-- The source condition `firstClickIndex === -1 || i < firstClickIndex`
guarding the initial bucket (with `none` modelling `-1`). -/
def beforeFirstClick (fci : Option Nat) (i : Nat) : Bool :=
  match fci with
  | none => true
  | some k => decide (i < k)

/-- The `for` loop of `correlateNetworkStates`, scanning the merged sequence
with its index `i`.  `fci` is `firstClickIndex` (`none` models `-1`).  On a
click the previous click's state is closed out with `validUntil` the new
click's timestamp; a response goes to the initial bucket when
`firstClickIndex === -1 || i < firstClickIndex` and otherwise to the current
click's accumulator (when a current click exists). -/
def corrLoop (fci : Option Nat) (i : Nat) (currentClick : Option CombinedEvent)
    (currentNetworkEvents initialNetworkEvents : List CombinedEvent)
    (networkStates : List NetworkState) : List CombinedEvent → CorrAcc
  | [] => ⟨currentClick, currentNetworkEvents, initialNetworkEvents, networkStates⟩
  | e :: rest =>
    if isClick e then
      match currentClick with
      | some c =>
        corrLoop fci (i + 1) (some e) [] initialNetworkEvents
          (networkStates ++ [⟨some c.id.render, currentNetworkEvents, some e.timestamp⟩]) rest
      | none =>
        corrLoop fci (i + 1) (some e) [] initialNetworkEvents networkStates rest
    else if isResponse e then
      if beforeFirstClick fci i then
        corrLoop fci (i + 1) currentClick currentNetworkEvents
          (initialNetworkEvents ++ [e]) networkStates rest
      else if currentClick.isSome then
        corrLoop fci (i + 1) currentClick (currentNetworkEvents ++ [e])
          initialNetworkEvents networkStates rest
      else
        corrLoop fci (i + 1) currentClick currentNetworkEvents initialNetworkEvents networkStates rest
    else
      corrLoop fci (i + 1) currentClick currentNetworkEvents initialNetworkEvents networkStates rest

/-- The Network Correlator `correlateNetworkStates`: run the scan, prepend
the initial state when its bucket is non-empty (with `validUntil` the first
click's timestamp, or `Infinity` when there is no click), and close out the
final current click with `validUntil: Infinity`. -/
def correlateNetworkStates (combinedEvents : List CombinedEvent) : List NetworkState :=
  let fci := combinedEvents.findIdx? isClick
  let acc := corrLoop fci 0 none [] [] [] combinedEvents
  let withInitial :=
    if !acc.initialNetworkEvents.isEmpty then
      ⟨none, acc.initialNetworkEvents,
        match fci with
        | some k =>
          match combinedEvents.get? k with
          | some e => some e.timestamp
          | none => none
        | none => none⟩ :: acc.networkStates
    else acc.networkStates
  match acc.currentClick with
  | some c => withInitial ++ [⟨some c.id.render, acc.currentNetworkEvents, none⟩]
  | none => withInitial

/-- The data interpolated for one mock-installation (`server.use`) override
in the generated test body. -/
structure InstallRec where
  method : String
  fullPath : String
  requestBody : Option String
  status : Option Int
  data : Option JsonValue
deriving Repr

/-- The per-response data read inside `generateTestCode` when rendering one
override handler: lowercased method, `new URL(networkEvent.url!)` (throwing
on an unparsable URL; the non-null assertion passes `undefined` when the
field is absent), `networkEvent.request?.body || null`, status and data. -/
def mkInstallRec (up : UrlParse) (e : CombinedEvent) : Except GenError InstallRec :=
  match e.url with
  | none => .error (.malformedNetworkURL "undefined")
  | some u =>
    match up u with
    | none => .error (.malformedNetworkURL u)
    | some parts =>
      .ok
        { method := (jsOrStr e.method "GET").toLower
          fullPath := parts.pathname ++ parts.search
          requestBody := jsBody e.request
          status := e.status
          data := e.response.map (·.data) }

/-- Whether a test-body override handler uses the body-matching shape
(`requestBody !== null && ['post','put','patch'].includes(method)`). -/
def installHasBody (r : InstallRec) : Bool :=
  r.requestBody.isSome && bodyMethods.contains r.method

/-- One element of the `testSteps` array of `generateTestCode`, tagged with
the data its source text interpolates.  `clickId` fields record which click's
network state a step belongs to; they are bookkeeping for the statements
below and do not appear in the rendered text. -/
inductive Step where
  | setup (componentName : String) : Step
  | initialHeader (n : Nat) : Step
  | initialMock (r : InstallRec) (comma : Bool) : Step
  | initialClose : Step
  | clickMockHeader (n : Nat) (clickId : String) (testId : String) : Step
  | clickMock (clickId : String) (r : InstallRec) : Step
  | clickStep (n : Nat) (clickId : String) (testId : String) : Step
  | assertStep (n : Nat) (testId : String) (elementText : String) : Step
  | keyboardStep (n : Nat) (testId : String) (text : String) : Step
deriving Repr

/-- `event.elementText.replace(/'/g, "\\'")`. -/
def escapeSingleQuotes (s : String) : String :=
  s.foldl (fun acc c => acc ++ (if c = '\'' then "\\'" else String.singleton c)) ""

/-- `${event.keyboardSequence || event.key}`: an absent or empty sequence
falls back to `event.key`, and an absent key interpolates as `undefined`. -/
def kbText (e : CombinedEvent) : String :=
  match e.keyboardSequence with
  | some s => if s = "" then e.key.getD "undefined" else s
  | none => e.key.getD "undefined"

/-- Source text of one override handler inside the initial `server.use(`
block (body-matching and unconditional shapes, JSON indent 8, with the
trailing comma emitted for all but the last handler of the block). -/
def renderInitialMock (r : InstallRec) (comma : Bool) : String :=
  (match r.requestBody with
    | some b =>
      if bodyMethods.contains r.method then
        "      rest." ++ r.method ++ "('*" ++ r.fullPath ++ "', async (req, res, ctx) => \x7b\n        const body = await req.text()\n        if (body === " ++ jsonQuote b ++ ") \x7b\n          return res(\n            ctx.status(" ++ optIntStr r.status ++ "),\n            ctx.json(" ++ stringifyIndent 8 r.data ++ ")\n          )\n        \x7d\n        return res(ctx.status(400), ctx.text('Request body mismatch'))\n      \x7d)"
      else
        "      rest." ++ r.method ++ "('*" ++ r.fullPath ++ "', (req, res, ctx) => \x7b\n        return res(\n          ctx.status(" ++ optIntStr r.status ++ "),\n          ctx.json(" ++ stringifyIndent 8 r.data ++ ")\n        )\n      \x7d)"
    | none =>
      "      rest." ++ r.method ++ "('*" ++ r.fullPath ++ "', (req, res, ctx) => \x7b\n        return res(\n          ctx.status(" ++ optIntStr r.status ++ "),\n          ctx.json(" ++ stringifyIndent 8 r.data ++ ")\n        )\n      \x7d)") ++
  (if comma then "," else "")

/-- Source text of one `server.use(...)` override emitted before a click
(body-matching and unconditional shapes, JSON indent 6). -/
def renderClickMock (r : InstallRec) : String :=
  match r.requestBody with
  | some b =>
    if bodyMethods.contains r.method then
      "    server.use(\n      rest." ++ r.method ++ "('*" ++ r.fullPath ++ "', async (req, res, ctx) => \x7b\n        const body = await req.text()\n        if (body === " ++ jsonQuote b ++ ") \x7b\n          return res(\n            ctx.status(" ++ optIntStr r.status ++ "),\n            ctx.json(" ++ stringifyIndent 6 r.data ++ ")\n          )\n        \x7d\n        return res(ctx.status(400), ctx.text('Request body mismatch'))\n      \x7d)\n    )"
    else
      "    server.use(\n      rest." ++ r.method ++ "('*" ++ r.fullPath ++ "', (req, res, ctx) => \x7b\n        return res(\n          ctx.status(" ++ optIntStr r.status ++ "),\n          ctx.json(" ++ stringifyIndent 6 r.data ++ ")\n        )\n      \x7d)\n    )"
  | none =>
    "    server.use(\n      rest." ++ r.method ++ "('*" ++ r.fullPath ++ "', (req, res, ctx) => \x7b\n        return res(\n          ctx.status(" ++ optIntStr r.status ++ "),\n          ctx.json(" ++ stringifyIndent 6 r.data ++ ")\n        )\n      \x7d)\n    )"

/-- The exact string pushed onto `testSteps` for each step. -/
def renderStep : Step → String
  | .setup componentName =>
    "    // Setup user event\n    const user = userEvent.setup()\n    \n    // Render component\n    render(<" ++ componentName ++ " />)"
  | .initialHeader n =>
    "\n    // Step " ++ toString n ++ ": Setup initial network state\n    server.use("
  | .initialMock r comma => renderInitialMock r comma
  | .initialClose => "    )"
  | .clickMockHeader n _ testId =>
    "\n    // Step " ++ toString n ++ ": Setup network state BEFORE " ++ testId ++ " click"
  | .clickMock _ r => renderClickMock r
  | .clickStep n _ testId =>
    "\n    // Step " ++ toString n ++ ": Click " ++ testId ++ "\n    fireEvent.click(await screen.findByTestId('" ++ testId ++ "'))"
  | .assertStep n testId elementText =>
    "\n    // Step " ++ toString n ++ ": Assert " ++ testId ++ " text content\n    expect(await screen.findByTestId('" ++ testId ++ "')).toHaveTextContent('" ++ escapeSingleQuotes elementText ++ "')"
  | .keyboardStep n testId text =>
    "\n    // Step " ++ toString n ++ ": Keyboard input" ++ (if testId ≠ "document" then " on " ++ testId else "") ++ "\n    await user.keyboard('" ++ text ++ "')"

/-- The overrides of the initial `server.use(` block, in state order, with a
trailing comma on every handler but the last
(`index < initialNetworkState.networkEvents.length - 1`). -/
def initialMockSteps (up : UrlParse) : List CombinedEvent → Except GenError (List Step)
  | [] => .ok []
  | [e] =>
    match mkInstallRec up e with
    | .error err => .error err
    | .ok r => .ok [Step.initialMock r false]
  | e :: f :: rest =>
    match mkInstallRec up e with
    | .error err => .error err
    | .ok r =>
      match initialMockSteps up (f :: rest) with
      | .error err => .error err
      | .ok tail => .ok (Step.initialMock r true :: tail)

/-- The override steps installed before one click, one per response of its
associated network state. -/
def clickMockSteps (up : UrlParse) (clickId : String) :
    List CombinedEvent → Except GenError (List Step)
  | [] => .ok []
  | e :: rest =>
    match mkInstallRec up e with
    | .error err => .error err
    | .ok r =>
      match clickMockSteps up clickId rest with
      | .error err => .error err
      | .ok tail => .ok (Step.clickMock clickId r :: tail)

/-- The main `for (const event of combinedEvents)` walk of
`generateTestCode`, threading `stepNumber`.  A click first emits the
mock-installation block of the network state found for its id (when that
state is non-empty), then its replay step; assertions and keyboard events
emit one step each; network events emit nothing. -/
def walkSteps (up : UrlParse) (networkStates : List NetworkState) :
    List CombinedEvent → Nat → Except GenError (List Step)
  | [], _ => .ok []
  | e :: rest, n =>
    match e.type with
    | .click =>
      let cid := e.id.render
      match networkStates.find? (fun s => s.clickEventId == some cid) with
      | some st =>
        if !st.networkEvents.isEmpty then
          match clickMockSteps up cid st.networkEvents with
          | .error err => .error err
          | .ok mocks =>
            match walkSteps up networkStates rest (n + 2) with
            | .error err => .error err
            | .ok tail =>
              .ok ([Step.clickMockHeader n cid e.testId] ++ mocks ++
                [Step.clickStep (n + 1) cid e.testId] ++ tail)
        else
          match walkSteps up networkStates rest (n + 1) with
          | .error err => .error err
          | .ok tail => .ok (Step.clickStep n cid e.testId :: tail)
      | none =>
        match walkSteps up networkStates rest (n + 1) with
        | .error err => .error err
        | .ok tail => .ok (Step.clickStep n cid e.testId :: tail)
    | .assertion =>
      match walkSteps up networkStates rest (n + 1) with
      | .error err => .error err
      | .ok tail => .ok (Step.assertStep n e.testId e.elementText :: tail)
    | .keyboard =>
      match walkSteps up networkStates rest (n + 1) with
      | .error err => .error err
      | .ok tail => .ok (Step.keyboardStep n e.testId (kbText e) :: tail)
    | _ => walkSteps up networkStates rest n

/-- The full ordered `testSteps` list of `generateTestCode`: the setup push,
then (when an initial network state exists and is non-empty) the initial
mock block numbered 1, then the event walk. -/
def genSteps (up : UrlParse) (componentName : String) (combinedEvents : List CombinedEvent) :
    Except GenError (List Step) :=
  let networkStates := correlateNetworkStates combinedEvents
  let iniResult : Except GenError (List Step × Nat) :=
    match networkStates.find? (fun s => s.clickEventId.isNone) with
    | some st =>
      if !st.networkEvents.isEmpty then
        match initialMockSteps up st.networkEvents with
        | .error err => .error err
        | .ok mocks => .ok ([Step.initialHeader 1] ++ mocks ++ [Step.initialClose], 2)
      else .ok ([], 1)
    | none => .ok ([], 1)
  match iniResult with
  | .error err => .error err
  | .ok (iniSteps, startN) =>
    match walkSteps up networkStates combinedEvents startN with
    | .error err => .error err
    | .ok tail => .ok ([Step.setup componentName] ++ iniSteps ++ tail)

/-- The import lines of the generated test source. -/
def testImports (componentName : String) : List String :=
  [ "import \x7b render, screen, fireEvent, waitFor \x7d from '@testing-library/react'"
  , "import userEvent from '@testing-library/user-event'"
  , "import \x7b rest \x7d from 'msw'"
  , "import \x7b server \x7d from '../mocks/server'"
  , "import " ++ componentName ++ " from './" ++ componentName ++ "'" ]

/-- The Test Script Synthesizer `generateTestCode`: render the steps and wrap
them in the import header and the describe/fixture template. -/
def generateTestCode (up : UrlParse) (combinedEvents : List CombinedEvent)
    (testName componentName describeLabel : String) : Except GenError String :=
  (genSteps up componentName combinedEvents).map fun steps =>
    String.intercalate "\n" (testImports componentName) ++
    "\n\ndescribe('" ++ describeLabel ++ "', () => \x7b\n  beforeEach(() => \x7b\n    server.listen()\n  \x7d)\n\n  afterEach(() => \x7b\n    server.resetHandlers()\n  \x7d)\n\n  afterAll(() => \x7b\n    server.close()\n  \x7d)\n\n  test('" ++ testName ++ "', async () => \x7b\n" ++
    String.intercalate "\n" (steps.map renderStep) ++ "\n  \x7d)\n\x7d)"

/-- `TestOptions` of the source: every field optional, defaults applied by
`generateTest`. -/
structure TestOptions where
  testName : Option String := none
  componentName : Option String := none
  describeLabel : Option String := none
deriving Repr

/-- `GeneratedTest` of the source. -/
structure GeneratedTest where
  testCode : String
  mswHandlers : String
  combinedEvents : List CombinedEvent
deriving Repr

/-- The synthesis entry point `generateTest`: apply option defaults, merge
the two logs, and produce the mock-handler source and the test source. -/
def generateTest (up : UrlParse) (norm : String → Int)
    (eventHistory : List EventHistoryItem) (networkHistory : List NetworkHistoryItem)
    (options : TestOptions) : Except GenError GeneratedTest :=
  let testName := options.testName.getD "should handle user interactions correctly"
  let componentName := options.componentName.getD "MyComponent"
  let describeLabel := options.describeLabel.getD "MyComponent Integration Tests"
  let combinedEvents := mergeEvents norm eventHistory networkHistory
  match generateMSWHandlers up networkHistory with
  | .error err => .error err
  | .ok mswHandlers =>
    match generateTestCode up combinedEvents testName componentName describeLabel with
    | .error err => .error err
    | .ok testCode => .ok ⟨testCode, mswHandlers, combinedEvents⟩

/-- `[...new Set(xs)]`: deduplication preserving first occurrences. -/
def setDedup : List String → List String
  | [] => []
  | x :: xs => x :: setDedup (xs.filter (fun y => y ≠ x))
termination_by l => l.length
decreasing_by
  have := List.length_filter_le (fun y => decide (y ≠ x)) xs
  simp only [List.length_cons]
  omega

/-- `TestSummary` of the source. -/
structure TestSummary where
  totalEvents : Nat
  totalNetworkCalls : Nat
  uniqueTestIds : List String
  uniqueEndpoints : List String
deriving Repr, DecidableEq

/-- `GeneratedTestSuite` of the source. -/
structure GeneratedTestSuite where
  testCode : String
  mswHandlers : String
  combinedEvents : List CombinedEvent
  summary : TestSummary
deriving Repr

/-- The Summary Builder inside `generateTestSuite`. -/
def buildSummary (eventHistory : List EventHistoryItem)
    (networkHistory : List NetworkHistoryItem) : TestSummary where
  totalEvents := eventHistory.length
  totalNetworkCalls := (networkHistory.filter (fun e => e.type = .networkRequest)).length
  uniqueTestIds := setDedup (eventHistory.map (·.testId))
  uniqueEndpoints :=
    setDedup ((networkHistory.filter (fun e => e.type = .networkRequest)).map (·.url))

/-- The exported entry point `generateTestSuite`: `generateTest` plus the
summary. -/
def generateTestSuite (up : UrlParse) (norm : String → Int)
    (eventHistory : List EventHistoryItem) (networkHistory : List NetworkHistoryItem)
    (options : TestOptions) : Except GenError GeneratedTestSuite :=
  (generateTest up norm eventHistory networkHistory options).map fun r =>
    ⟨r.testCode, r.mswHandlers, r.combinedEvents, buildSummary eventHistory networkHistory⟩

/-- The caller `handleGenerateTest` of the SnapTest generator panel: when
both logs are empty it warns and returns without invoking the synthesizer
(`none`, no artifact); otherwise it stores the generated suite. -/
def handleGenerateTest (up : UrlParse) (norm : String → Int)
    (eventHistory : List EventHistoryItem) (networkHistory : List NetworkHistoryItem)
    (options : TestOptions) : Option (Except GenError GeneratedTestSuite) :=
  if eventHistory.isEmpty && networkHistory.isEmpty then none
  else some (generateTestSuite up norm eventHistory networkHistory options)

/-! ## Shared concrete fixtures for witnesses -/

/-- A URL parser that rejects every string (usable where no URL is parsed). -/
def upNone : UrlParse := fun _ => none

/-- A trivial timestamp normalization (usable where dates are irrelevant). -/
def normZero : String → Int := fun _ => 0

/-- A URL parser defined on the handful of URLs used in concrete fixtures,
rejecting everything else. -/
def upDemo : UrlParse := fun s =>
  if s = "https://api.example.com/submit" then some ⟨"/submit", ""⟩
  else if s = "https://api.example.com/data?page=1" then some ⟨"/data", "?page=1"⟩
  else if s = "https://api.example.com/users" then some ⟨"/users", ""⟩
  else none

/-- A recorded response with a well-formed URL. -/
def goodResp : NetworkHistoryItem where
  id := "r1"
  type := .networkResponse
  method := some "GET"
  url := "https://api.example.com/data?page=1"
  timestamp := 100
  status := some 200
  request := none
  response := some ⟨.obj [("ok", .bool true)], none⟩
  error := none

/-- A recorded response whose URL cannot be parsed. -/
def badResp : NetworkHistoryItem where
  id := "r2"
  type := .networkResponse
  method := some "GET"
  url := "not-a-url"
  timestamp := 200
  status := some 200
  request := none
  response := some ⟨.null, none⟩
  error := none

/-! ## Claims -/

/-- Claim C9: the synthesis is a deterministic pure function of its
arguments.  In this embedding `generateTestSuite` reads nothing but its
parameters (the source functions likewise hold no state across invocations),
so two invocations with identical input logs and configuration return
identical results — in particular byte-identical test-source and
mock-handler strings and identical summaries. -/
theorem claim_C9_deterministic (up : UrlParse) (norm : String → Int)
    (eventHistory : List EventHistoryItem) (networkHistory : List NetworkHistoryItem)
    (options : TestOptions) :
    generateTestSuite up norm eventHistory networkHistory options =
      generateTestSuite up norm eventHistory networkHistory options ∧
    (generateTestSuite up norm eventHistory networkHistory options).map
        (fun r => (r.testCode, r.mswHandlers, r.summary)) =
      (generateTestSuite up norm eventHistory networkHistory options).map
        (fun r => (r.testCode, r.mswHandlers, r.summary)) :=
  ⟨rfl, rfl⟩

/-- Claim C1, counterexample: on two empty input logs the synthesis entry
point `generateTestSuite` does *not* signal any condition — it succeeds and
returns a vacuous artifact (empty summary, a test with no recorded steps).
The empty-logs guard lives only in the caller `handleGenerateTest`. -/
theorem claim_C1_counterexample :
    (generateTestSuite upNone normZero [] [] {}).isOk = true ∧
    (generateTestSuite upNone normZero [] [] {}).map (fun r => r.summary.totalEvents) = .ok 0 ∧
    (generateTestSuite upNone normZero [] [] {}).map (fun r => r.combinedEvents) = .ok [] := by
  refine ⟨?_, ?_, ?_⟩ <;>
    simp [generateTestSuite, generateTest, generateMSWHandlers, buildDefaultHandlers,
      generateTestCode, genSteps, walkSteps, correlateNetworkStates, corrLoop,
      mergeEvents, buildSummary, setDedup, beforeFirstClick, Except.map, Except.isOk, Except.toBool]

/-- Claim C1 (amended): the `NoRecordedActivity` refusal is implemented by
the caller `handleGenerateTest`, not by `generateTestSuite`/`generateTest`:
the caller produces no artifact exactly when both input logs are empty, and
otherwise passes the synthesizer's result through unchanged. -/
theorem claim_C1_guard_in_caller (up : UrlParse) (norm : String → Int)
    (eventHistory : List EventHistoryItem) (networkHistory : List NetworkHistoryItem)
    (options : TestOptions) :
    (handleGenerateTest up norm eventHistory networkHistory options = none ↔
      eventHistory = [] ∧ networkHistory = []) ∧
    (∀ r, handleGenerateTest up norm eventHistory networkHistory options = some r →
      r = generateTestSuite up norm eventHistory networkHistory options) := by
  unfold handleGenerateTest
  cases eventHistory <;> cases networkHistory <;>
    simp [List.isEmpty]

/-- Claim C2: a response whose URL cannot be parsed is *fatal* to the whole
synthesis, not skipped.  With a well-formed response followed by a
malformed-URL response, `generateMSWHandlers` (and hence the whole
`generateTestSuite`) evaluates to the thrown `TypeError` and emits nothing —
not even the handler of the well-formed event, which on its own generates
fine. -/
theorem claim_C2_malformed_url_is_fatal :
    (generateMSWHandlers upDemo [goodResp]).isOk = true ∧
    generateMSWHandlers upDemo [goodResp, badResp] =
      .error (.malformedNetworkURL "not-a-url") ∧
    generateTestSuite upDemo normZero [] [goodResp, badResp] {} =
      .error (.malformedNetworkURL "not-a-url") :=
  ⟨rfl, rfl, rfl⟩

/-- Claim C10: a response whose recorded request body is the empty string is
treated as having no body (`event.request?.body || null` collapses `""` to
`null`): the deduplication key ends in `-null`, the stored record carries no
body, and the emitted handler is the unconditional non-body-matching shape
replying with the recorded status and data for *every* incoming body — for
any method, including POST/PUT/PATCH. -/
theorem claim_C10_empty_body_treated_as_null (up : UrlParse) (e : NetworkHistoryItem)
    (r : ReqBody) (hreq : e.request = some r) (hbody : r.body = some "") :
    jsBody e.request = none ∧
    jsonQuoteOpt (none : Option String) = "null" ∧
    (e.type = .networkResponse → ∀ parts, up e.url = some parts →
      respKey up e = some
        (dedupKeyOf (jsOrStr e.method "GET") (parts.pathname ++ parts.search) none)) ∧
    (∀ parts,
      (mkHandlerRec e parts).requestBody = none ∧
      recHasBody (mkHandlerRec e parts) = false ∧
      renderHandler (mkHandlerRec e parts) = renderHandlerPlain (mkHandlerRec e parts) ∧
      (∀ b, handlerFn (mkHandlerRec e parts) b = .json e.status (e.response.map (·.data)))) := by
  have hnull : jsBody e.request = none := by
    rw [hreq]
    simp [jsBody, hbody]
  refine ⟨hnull, rfl, ?_, ?_⟩
  · intro ht parts hparts
    simp [respKey, ht, hparts, hnull]
  · intro parts
    refine ⟨by simp [mkHandlerRec, hnull], ?_, ?_, ?_⟩
    · simp [recHasBody, mkHandlerRec, hnull]
    · simp [renderHandler, mkHandlerRec, hnull]
    · intro b
      simp [handlerFn, mkHandlerRec, hnull]

/-- A recorded POST response whose request body was recorded as the empty
string. -/
def emptyBodyResp : NetworkHistoryItem where
  id := "r3"
  type := .networkResponse
  method := some "POST"
  url := "https://api.example.com/users"
  timestamp := 300
  status := some 201
  request := some ⟨some ""⟩
  response := some ⟨.obj [("id", .num 456)], none⟩
  error := none

/-- Witness for claim C10 at a concrete POST response recorded with an empty
request body. -/
theorem claim_C10_witness :
    emptyBodyResp.request = some ⟨some ""⟩ ∧
    (⟨some ""⟩ : ReqBody).body = some "" ∧
    (jsBody emptyBodyResp.request = none ∧
     jsonQuoteOpt (none : Option String) = "null" ∧
     (emptyBodyResp.type = .networkResponse → ∀ parts, upDemo emptyBodyResp.url = some parts →
       respKey upDemo emptyBodyResp = some
         (dedupKeyOf (jsOrStr emptyBodyResp.method "GET") (parts.pathname ++ parts.search) none)) ∧
     (∀ parts,
       (mkHandlerRec emptyBodyResp parts).requestBody = none ∧
       recHasBody (mkHandlerRec emptyBodyResp parts) = false ∧
       renderHandler (mkHandlerRec emptyBodyResp parts) =
         renderHandlerPlain (mkHandlerRec emptyBodyResp parts) ∧
       (∀ b, handlerFn (mkHandlerRec emptyBodyResp parts) b =
         .json emptyBodyResp.status (emptyBodyResp.response.map (·.data))))) :=
  ⟨rfl, rfl, claim_C10_empty_body_treated_as_null upDemo emptyBodyResp ⟨some ""⟩ rfl rfl⟩

/-! ## Deduplication-map lemmas for the Mock Handler Synthesizer -/

/-- A response event with a parseable URL has the deduplication key the
source computes for it. -/
theorem respKey_eq_some (up : UrlParse) (e : NetworkHistoryItem) (parts : UrlParts)
    (he : e.type = .networkResponse) (hu : up e.url = some parts) :
    respKey up e = some
      (dedupKeyOf (jsOrStr e.method "GET") (parts.pathname ++ parts.search) (jsBody e.request)) := by
  simp [respKey, he, hu]

/-- Non-response events have no deduplication key. -/
theorem respKey_of_not_response (up : UrlParse) (e : NetworkHistoryItem)
    (he : ¬ e.type = .networkResponse) : respKey up e = none := by
  simp [respKey, he]

/-- Characterization of the deduplication map: when the build succeeds, the
entry at key `k` is either the one already in the accumulator or the record
of the *first* response event of the history whose key is `k`. -/
theorem buildDH_lookup (up : UrlParse) :
    ∀ (nh : List NetworkHistoryItem) (acc m : List (String × HandlerRec)),
      buildDefaultHandlers up nh acc = .ok m → ∀ k : String,
      m.lookup k = (acc.lookup k).or
        ((nh.find? (fun e => respKey up e == some k)).bind fun e =>
          (up e.url).map (mkHandlerRec e)) := by
  intro nh
  induction nh with
  | nil =>
    intro acc m h k
    simp only [buildDefaultHandlers] at h
    cases h
    simp
  | cons e rest ih =>
    intro acc m h k
    simp only [buildDefaultHandlers] at h
    by_cases he : e.type = .networkResponse
    · rw [if_pos he] at h
      cases hu : up e.url with
      | none => rw [hu] at h; cases h
      | some parts =>
        rw [hu] at h
        dsimp only at h
        have hkey := respKey_eq_some up e parts he hu
        set keyE := dedupKeyOf (jsOrStr e.method "GET") (parts.pathname ++ parts.search) (jsBody e.request) with hkeyE
        by_cases hk : k = keyE
        · subst hk
          have hfind : List.find? (fun x => respKey up x == some keyE) (e :: rest) = some e :=
            List.find?_cons_of_pos _ (by rw [hkey]; simp)
          rw [hfind, Option.some_bind, hu, Option.map_some']
          by_cases hl : (acc.lookup keyE).isSome = true
          · rw [if_pos hl] at h
            obtain ⟨v, hv⟩ := Option.isSome_iff_exists.mp hl
            rw [ih acc m h, hv, Option.or_some, Option.or_some]
          · rw [if_neg hl] at h
            have hnone : acc.lookup keyE = none := Option.not_isSome_iff_eq_none.mp hl
            rw [ih _ m h, List.lookup_append, hnone, Option.none_or, List.lookup_cons_self,
              Option.or_some, Option.none_or]
        · have hfind : List.find? (fun x => respKey up x == some k) (e :: rest) =
              List.find? (fun x => respKey up x == some k) rest :=
            List.find?_cons_of_neg _ (by rw [hkey]; simp; exact fun hkk => hk hkk.symm)
          rw [hfind]
          by_cases hl : (acc.lookup keyE).isSome = true
          · rw [if_pos hl] at h
            exact ih acc m h k
          · rw [if_neg hl] at h
            rw [ih _ m h k, List.lookup_append]
            have hsk : ([(keyE, mkHandlerRec e parts)].lookup k) = none := by
              rw [List.lookup_eq_none_iff]
              intro p hp
              rw [List.mem_singleton] at hp
              subst hp
              simpa using hk
            rw [hsk, Option.or_none]
    · rw [if_neg he] at h
      have hfind : List.find? (fun x => respKey up x == some k) (e :: rest) =
          List.find? (fun x => respKey up x == some k) rest :=
        List.find?_cons_of_neg _ (by rw [respKey_of_not_response up e he]; simp)
      rw [hfind]
      exact ih acc m h k

/-- Inversion for `respKey`: a key exists exactly for response events with a
parseable URL, and equals the source's `${method}-${fullPath}-${body}`
string. -/
theorem respKey_some_iff (up : UrlParse) (e : NetworkHistoryItem) (k : String) :
    respKey up e = some k ↔
      e.type = .networkResponse ∧ ∃ parts, up e.url = some parts ∧
        k = dedupKeyOf (jsOrStr e.method "GET") (parts.pathname ++ parts.search) (jsBody e.request) := by
  by_cases he : e.type = .networkResponse
  · simp only [respKey, he, if_pos, true_and]
    cases hu : up e.url with
    | none => simp
    | some parts => simp [eq_comm]
  · simp [respKey, he]

/-- The build never duplicates a key: the keys of the resulting map are
pairwise distinct whenever the accumulator's were. -/
theorem buildDH_nodup (up : UrlParse) :
    ∀ (nh : List NetworkHistoryItem) (acc m : List (String × HandlerRec)),
      buildDefaultHandlers up nh acc = .ok m →
      (acc.map Prod.fst).Nodup → (m.map Prod.fst).Nodup := by
  intro nh
  induction nh with
  | nil =>
    intro acc m h hacc
    simp only [buildDefaultHandlers] at h
    cases h
    exact hacc
  | cons e rest ih =>
    intro acc m h hacc
    simp only [buildDefaultHandlers] at h
    by_cases he : e.type = .networkResponse
    · rw [if_pos he] at h
      cases hu : up e.url with
      | none => rw [hu] at h; cases h
      | some parts =>
        rw [hu] at h
        dsimp only at h
        set keyE := dedupKeyOf (jsOrStr e.method "GET") (parts.pathname ++ parts.search) (jsBody e.request) with hkeyE
        by_cases hl : (acc.lookup keyE).isSome = true
        · rw [if_pos hl] at h
          exact ih acc m h hacc
        · rw [if_neg hl] at h
          refine ih _ m h ?_
          have hnone : acc.lookup keyE = none := Option.not_isSome_iff_eq_none.mp hl
          rw [List.lookup_eq_none_iff] at hnone
          rw [List.map_append]
          simp only [List.map_cons, List.map_nil]
          rw [List.nodup_append]
          refine ⟨hacc, List.nodup_singleton keyE, ?_⟩
          intro a ha hb
          rw [List.mem_singleton] at hb
          subst hb
          obtain ⟨p, hp, hp1⟩ := List.mem_map.mp ha
          have := hnone p hp
          rw [hp1] at this
          simp at this
    · rw [if_neg he] at h
      exact ih acc m h hacc

/-- Every entry of the built map comes from some response event of the
history (or was already in the accumulator): its key is that event's
deduplication key and its record is `mkHandlerRec` of that event. -/
theorem buildDH_provenance (up : UrlParse) :
    ∀ (nh : List NetworkHistoryItem) (acc m : List (String × HandlerRec)),
      buildDefaultHandlers up nh acc = .ok m →
      ∀ kv, kv ∈ m → kv ∈ acc ∨
        ∃ e parts, e ∈ nh ∧ e.type = .networkResponse ∧ up e.url = some parts ∧
          kv = (dedupKeyOf (jsOrStr e.method "GET") (parts.pathname ++ parts.search) (jsBody e.request),
                mkHandlerRec e parts) := by
  intro nh
  induction nh with
  | nil =>
    intro acc m h kv hkv
    simp only [buildDefaultHandlers] at h
    cases h
    exact Or.inl hkv
  | cons e rest ih =>
    intro acc m h kv hkv
    simp only [buildDefaultHandlers] at h
    by_cases he : e.type = .networkResponse
    · rw [if_pos he] at h
      cases hu : up e.url with
      | none => rw [hu] at h; cases h
      | some parts =>
        rw [hu] at h
        dsimp only at h
        by_cases hl : (acc.lookup (dedupKeyOf (jsOrStr e.method "GET") (parts.pathname ++ parts.search) (jsBody e.request))).isSome = true
        · rw [if_pos hl] at h
          rcases ih acc m h kv hkv with hin | ⟨f, pf, hf, hft, hfu, hkv⟩
          · exact Or.inl hin
          · exact Or.inr ⟨f, pf, List.mem_cons_of_mem e hf, hft, hfu, hkv⟩
        · rw [if_neg hl] at h
          rcases ih _ m h kv hkv with hin | ⟨f, pf, hf, hft, hfu, hkv⟩
          · rcases List.mem_append.mp hin with hin | hin
            · exact Or.inl hin
            · rw [List.mem_singleton] at hin
              exact Or.inr ⟨e, parts, List.mem_cons_self e rest, he, hu, hin⟩
          · exact Or.inr ⟨f, pf, List.mem_cons_of_mem e hf, hft, hfu, hkv⟩
    · rw [if_neg he] at h
      rcases ih acc m h kv hkv with hin | ⟨f, pf, hf, hft, hfu, hkv⟩
      · exact Or.inl hin
      · exact Or.inr ⟨f, pf, List.mem_cons_of_mem e hf, hft, hfu, hkv⟩

/-- Claim C4: when the mock-handler build succeeds, the emitted handler list
has exactly one handler per distinct deduplication key
(`${method}-${fullPath}-${JSON.stringify(requestBody)}`) among the response
events — keys pairwise distinct, and a key present exactly when some
response event carries it — and the record rendered for each key is
`mkHandlerRec` of the *first* response event with that key, carrying that
response's status and data regardless of how many responses share the key.
The emitted module source is one rendered handler per map entry. -/
theorem claim_C4_dedup (up : UrlParse) (nh : List NetworkHistoryItem)
    (m : List (String × HandlerRec)) (h : buildDefaultHandlers up nh [] = .ok m) :
    (m.map Prod.fst).Nodup ∧
    (∀ k, k ∈ m.map Prod.fst ↔ ∃ e, e ∈ nh ∧ respKey up e = some k) ∧
    (∀ k, m.lookup k =
      ((nh.find? (fun e => respKey up e == some k)).bind fun e =>
        (up e.url).map (mkHandlerRec e))) ∧
    generateMSWHandlers up nh = .ok
      ("import \x7b rest \x7d from 'msw'\n\nexport const handlers = [" ++
        String.intercalate "," (m.map fun kv => renderHandler kv.2) ++ "\n]") := by
  have hlook := buildDH_lookup up nh [] m h
  simp only [List.lookup_nil, Option.none_or] at hlook
  refine ⟨buildDH_nodup up nh [] m h (by simp), ?_, hlook, ?_⟩
  · intro k
    have h1 : k ∈ m.map Prod.fst ↔ (m.lookup k).isSome := by
      rw [List.lookup_isSome_iff]
      simp only [List.mem_map, beq_iff_eq]
      constructor
      · rintro ⟨p, hp, rfl⟩
        exact ⟨p, hp, rfl⟩
      · rintro ⟨p, hp, rfl⟩
        exact ⟨p, hp, rfl⟩
    rw [h1, hlook k]
    constructor
    · intro hs
      rw [Option.isSome_iff_exists] at hs
      obtain ⟨rec, hrec⟩ := hs
      rw [Option.bind_eq_some] at hrec
      obtain ⟨e, hfind, _⟩ := hrec
      refine ⟨e, List.mem_of_find?_eq_some hfind, ?_⟩
      have := List.find?_some hfind
      simpa using this
    · rintro ⟨e, he, hk⟩
      have hfs : (nh.find? (fun x => respKey up x == some k)).isSome := by
        rw [List.find?_isSome]
        exact ⟨e, he, by simp [hk]⟩
      obtain ⟨f, hf⟩ := Option.isSome_iff_exists.mp hfs
      have hpf : respKey up f = some k := by
        have := List.find?_some hf
        simpa using this
      obtain ⟨_, parts, hparts, _⟩ := (respKey_some_iff up f k).mp hpf
      rw [hf, Option.some_bind, hparts, Option.map_some']
      simp
  · rw [generateMSWHandlers, h]
    rfl

/-- Two recorded responses sharing the GET key `/data?page=1`, with different
bodies, and one distinct POST response with a request body. -/
def dupResp2 : NetworkHistoryItem where
  id := "r4"
  type := .networkResponse
  method := some "GET"
  url := "https://api.example.com/data?page=1"
  timestamp := 150
  status := some 500
  request := none
  response := some ⟨.obj [("ok", .bool false)], none⟩
  error := none

/-- A recorded POST response with a non-empty request body. -/
def postResp : NetworkHistoryItem where
  id := "r5"
  type := .networkResponse
  method := some "POST"
  url := "https://api.example.com/users"
  timestamp := 160
  status := some 201
  request := some ⟨some "\x7b\"name\":\"John Doe\"\x7d"⟩
  response := some ⟨.obj [("id", .num 456)], none⟩
  error := none

/-- Witness for claim C4: a history with two responses sharing one key plus
one distinct key yields a two-entry map whose first-key record is the first
response's. -/
theorem claim_C4_witness :
    buildDefaultHandlers upDemo [goodResp, dupResp2, postResp] [] = .ok
      [(dedupKeyOf "GET" "/data?page=1" none, mkHandlerRec goodResp ⟨"/data", "?page=1"⟩),
       (dedupKeyOf "POST" "/users" (some "\x7b\"name\":\"John Doe\"\x7d"),
        mkHandlerRec postResp ⟨"/users", ""⟩)] ∧
    (([(dedupKeyOf "GET" "/data?page=1" none, mkHandlerRec goodResp ⟨"/data", "?page=1"⟩),
       (dedupKeyOf "POST" "/users" (some "\x7b\"name\":\"John Doe\"\x7d"),
        mkHandlerRec postResp ⟨"/users", ""⟩)].map Prod.fst).Nodup ∧
     (∀ k, k ∈ ([(dedupKeyOf "GET" "/data?page=1" none, mkHandlerRec goodResp ⟨"/data", "?page=1"⟩),
       (dedupKeyOf "POST" "/users" (some "\x7b\"name\":\"John Doe\"\x7d"),
        mkHandlerRec postResp ⟨"/users", ""⟩)].map Prod.fst) ↔
        ∃ e, e ∈ [goodResp, dupResp2, postResp] ∧ respKey upDemo e = some k) ∧
     (∀ k, [(dedupKeyOf "GET" "/data?page=1" none, mkHandlerRec goodResp ⟨"/data", "?page=1"⟩),
       (dedupKeyOf "POST" "/users" (some "\x7b\"name\":\"John Doe\"\x7d"),
        mkHandlerRec postResp ⟨"/users", ""⟩)].lookup k =
      (([goodResp, dupResp2, postResp].find? (fun e => respKey upDemo e == some k)).bind fun e =>
        (upDemo e.url).map (mkHandlerRec e))) ∧
     generateMSWHandlers upDemo [goodResp, dupResp2, postResp] = .ok
      ("import \x7b rest \x7d from 'msw'\n\nexport const handlers = [" ++
        String.intercalate ","
          ([(dedupKeyOf "GET" "/data?page=1" none, mkHandlerRec goodResp ⟨"/data", "?page=1"⟩),
            (dedupKeyOf "POST" "/users" (some "\x7b\"name\":\"John Doe\"\x7d"),
             mkHandlerRec postResp ⟨"/users", ""⟩)].map fun kv => renderHandler kv.2) ++ "\n]")) :=
  ⟨rfl, claim_C4_dedup upDemo [goodResp, dupResp2, postResp] _ rfl⟩

/-- Claim C5: every handler in the deduplication map comes from a recorded
response, and its emitted shape and run-time behaviour follow that response:
when the response's method (lowercased) is post/put/patch and a (non-empty)
request body was recorded, the emitted source is the body-matching template
and its behaviour compares the incoming body byte-for-byte with the recorded
one — replying with the recorded status and JSON data on equality and with
HTTP 400 `Request body mismatch` on any other body; for any other method
(e.g. GET), or with no recorded body, the emitted source is the
unconditional template whose behaviour ignores the incoming body. -/
theorem claim_C5_body_match_shape (up : UrlParse) (nh : List NetworkHistoryItem)
    (m : List (String × HandlerRec)) (h : buildDefaultHandlers up nh [] = .ok m)
    (k : String) (rec : HandlerRec) (hm : (k, rec) ∈ m) :
    ∃ e parts, e ∈ nh ∧ e.type = .networkResponse ∧ up e.url = some parts ∧
      rec = mkHandlerRec e parts ∧
      (∀ b, jsBody e.request = some b → (jsOrStr e.method "GET").toLower ∈ bodyMethods →
        renderHandler rec = renderHandlerBody rec b ∧
        handlerFn rec b = .json e.status (e.response.map (·.data)) ∧
        (∀ b2, b2 ≠ b → handlerFn rec b2 = .text 400 "Request body mismatch")) ∧
      ((jsBody e.request = none ∨ (jsOrStr e.method "GET").toLower ∉ bodyMethods) →
        renderHandler rec = renderHandlerPlain rec ∧
        (∀ b2, handlerFn rec b2 = .json e.status (e.response.map (·.data)))) := by
  rcases buildDH_provenance up nh [] m h (k, rec) hm with hin | ⟨e, parts, he, ht, hu, hkv⟩
  · cases hin
  · have hrec : rec = mkHandlerRec e parts := congrArg Prod.snd hkv
    refine ⟨e, parts, he, ht, hu, hrec, ?_, ?_⟩
    · intro b hb hmeth
      subst hrec
      refine ⟨?_, ?_, ?_⟩
      · simp [renderHandler, mkHandlerRec, hb, hmeth]
      · simp [handlerFn, mkHandlerRec, hb, hmeth]
      · intro b2 hb2
        simp [handlerFn, mkHandlerRec, hb, hmeth, hb2]
    · intro hcase
      subst hrec
      rcases hcase with hb | hmeth
      · constructor
        · simp [renderHandler, mkHandlerRec, hb]
        · intro b2
          simp [handlerFn, mkHandlerRec, hb]
      · constructor
        · cases hrb : jsBody e.request with
          | none => simp [renderHandler, mkHandlerRec, hrb]
          | some b => simp [renderHandler, mkHandlerRec, hrb, hmeth]
        · intro b2
          cases hrb : jsBody e.request with
          | none => simp [handlerFn, mkHandlerRec, hrb]
          | some b => simp [handlerFn, mkHandlerRec, hrb, hmeth]

/-- Witness for claim C5 at a concrete one-response POST history. -/
theorem claim_C5_witness :
    buildDefaultHandlers upDemo [postResp] [] = .ok
      [(dedupKeyOf "POST" "/users" (some "\x7b\"name\":\"John Doe\"\x7d"),
        mkHandlerRec postResp ⟨"/users", ""⟩)] ∧
    (dedupKeyOf "POST" "/users" (some "\x7b\"name\":\"John Doe\"\x7d"),
        mkHandlerRec postResp ⟨"/users", ""⟩) ∈
      [(dedupKeyOf "POST" "/users" (some "\x7b\"name\":\"John Doe\"\x7d"),
        mkHandlerRec postResp ⟨"/users", ""⟩)] ∧
    (∃ e parts, e ∈ [postResp] ∧ e.type = .networkResponse ∧ upDemo e.url = some parts ∧
      mkHandlerRec postResp ⟨"/users", ""⟩ = mkHandlerRec e parts ∧
      (∀ b, jsBody e.request = some b → (jsOrStr e.method "GET").toLower ∈ bodyMethods →
        renderHandler (mkHandlerRec postResp ⟨"/users", ""⟩) =
          renderHandlerBody (mkHandlerRec postResp ⟨"/users", ""⟩) b ∧
        handlerFn (mkHandlerRec postResp ⟨"/users", ""⟩) b =
          .json e.status (e.response.map (·.data)) ∧
        (∀ b2, b2 ≠ b → handlerFn (mkHandlerRec postResp ⟨"/users", ""⟩) b2 =
          .text 400 "Request body mismatch")) ∧
      ((jsBody e.request = none ∨ (jsOrStr e.method "GET").toLower ∉ bodyMethods) →
        renderHandler (mkHandlerRec postResp ⟨"/users", ""⟩) =
          renderHandlerPlain (mkHandlerRec postResp ⟨"/users", ""⟩) ∧
        (∀ b2, handlerFn (mkHandlerRec postResp ⟨"/users", ""⟩) b2 =
          .json e.status (e.response.map (·.data))))) :=
  ⟨rfl, List.Mem.head _,
    claim_C5_body_match_shape upDemo [postResp] _ rfl _ _ (List.Mem.head _)⟩

/-- Steps belonging to the initial mock-installation block. -/
def isInitialInstall : Step → Bool
  | .initialHeader _ => true
  | .initialMock _ _ => true
  | .initialClose => true
  | _ => false

/-- Steps that replay a recorded interaction (click, assertion, keyboard). -/
def isInteraction : Step → Bool
  | .clickStep _ _ _ => true
  | .assertStep _ _ _ => true
  | .keyboardStep _ _ _ => true
  | _ => false

/-- Every assertion event of the walked sequence contributes an
`assertStep` carrying its recorded target id and element text. -/
theorem walkSteps_assert_mem (up : UrlParse) (states : List NetworkState) :
    ∀ (evs : List CombinedEvent) (n : Nat) (steps : List Step),
      walkSteps up states evs n = .ok steps →
      ∀ e ∈ evs, e.type = .assertion →
      ∃ k, Step.assertStep k e.testId e.elementText ∈ steps := by
  intro evs
  induction evs with
  | nil =>
    intro n steps h e he
    cases he
  | cons f rest ih =>
    intro n steps h e he ht
    simp only [walkSteps] at h
    rcases List.mem_cons.mp he with rfl | he'
    · rw [ht] at h
      dsimp only at h
      cases hw : walkSteps up states rest (n + 1) with
      | error err => rw [hw] at h; cases h
      | ok tail =>
        rw [hw] at h
        cases h
        exact ⟨n, List.Mem.head _⟩
    · cases hft : f.type
      case assertion =>
        rw [hft] at h
        dsimp only at h
        cases hw : walkSteps up states rest (n + 1) with
        | error err => rw [hw] at h; cases h
        | ok tail =>
          rw [hw] at h
          cases h
          obtain ⟨k, hk⟩ := ih (n + 1) tail hw e he' ht
          exact ⟨k, List.Mem.tail _ hk⟩
      case keyboard =>
        rw [hft] at h
        dsimp only at h
        cases hw : walkSteps up states rest (n + 1) with
        | error err => rw [hw] at h; cases h
        | ok tail =>
          rw [hw] at h
          cases h
          obtain ⟨k, hk⟩ := ih (n + 1) tail hw e he' ht
          exact ⟨k, List.Mem.tail _ hk⟩
      case click =>
        rw [hft] at h
        dsimp only at h
        cases hfind : states.find? (fun s => s.clickEventId == some f.id.render) with
        | none =>
          rw [hfind] at h
          dsimp only at h
          cases hw : walkSteps up states rest (n + 1) with
          | error err => rw [hw] at h; cases h
          | ok tail =>
            rw [hw] at h
            cases h
            obtain ⟨k, hk⟩ := ih (n + 1) tail hw e he' ht
            exact ⟨k, List.Mem.tail _ hk⟩
        | some st =>
          rw [hfind] at h
          dsimp only at h
          by_cases hemp : (!st.networkEvents.isEmpty) = true
          · rw [if_pos hemp] at h
            cases hcm : clickMockSteps up f.id.render st.networkEvents with
            | error err => rw [hcm] at h; cases h
            | ok mocks =>
              rw [hcm] at h
              cases hw : walkSteps up states rest (n + 2) with
              | error err => rw [hw] at h; cases h
              | ok tail =>
                rw [hw] at h
                cases h
                obtain ⟨k, hk⟩ := ih (n + 2) tail hw e he' ht
                refine ⟨k, ?_⟩
                simp only [List.mem_append, List.mem_cons, List.mem_singleton]
                tauto
          · rw [if_neg hemp] at h
            cases hw : walkSteps up states rest (n + 1) with
            | error err => rw [hw] at h; cases h
            | ok tail =>
              rw [hw] at h
              cases h
              obtain ⟨k, hk⟩ := ih (n + 1) tail hw e he' ht
              exact ⟨k, List.Mem.tail _ hk⟩
      case networkRequest =>
        rw [hft] at h
        dsimp only at h
        obtain ⟨k, hk⟩ := ih n steps h e he' ht
        exact ⟨k, hk⟩
      case networkResponse =>
        rw [hft] at h
        dsimp only at h
        obtain ⟨k, hk⟩ := ih n steps h e he' ht
        exact ⟨k, hk⟩
      case networkError =>
        rw [hft] at h
        dsimp only at h
        obtain ⟨k, hk⟩ := ih n steps h e he' ht
        exact ⟨k, hk⟩

/-- The initial block's handler steps are all `initialMock` steps. -/
theorem initialMockSteps_shape (up : UrlParse) :
    ∀ (l : List CombinedEvent) (steps : List Step), initialMockSteps up l = .ok steps →
      ∀ s ∈ steps, ∃ r c, s = Step.initialMock r c := by
  intro l
  induction l with
  | nil =>
    intro steps h s hs
    simp only [initialMockSteps] at h
    cases h
    cases hs
  | cons e rest ih =>
    intro steps h s hs
    cases rest with
    | nil =>
      simp only [initialMockSteps] at h
      cases hmk : mkInstallRec up e with
      | error err => rw [hmk] at h; cases h
      | ok r =>
        rw [hmk] at h
        cases h
        rw [List.mem_singleton] at hs
        exact ⟨r, false, hs⟩
    | cons f rest2 =>
      simp only [initialMockSteps] at h
      cases hmk : mkInstallRec up e with
      | error err => rw [hmk] at h; cases h
      | ok r =>
        rw [hmk] at h
        cases hrec : initialMockSteps up (f :: rest2) with
        | error err => rw [hrec] at h; cases h
        | ok tail =>
          rw [hrec] at h
          cases h
          rcases List.mem_cons.mp hs with rfl | hs'
          · exact ⟨r, true, rfl⟩
          · exact ih tail hrec s hs'

/-- Decomposition of the full step list: a setup step, then the initial
mock block (whose steps all belong to the initial installation), then the
event walk. -/
theorem genSteps_decomp (up : UrlParse) (componentName : String)
    (evs : List CombinedEvent) (steps : List Step)
    (h : genSteps up componentName evs = .ok steps) :
    ∃ iniSteps tail startN,
      walkSteps up (correlateNetworkStates evs) evs startN = .ok tail ∧
      steps = [Step.setup componentName] ++ iniSteps ++ tail ∧
      (∀ s ∈ iniSteps, isInitialInstall s = true) := by
  simp only [genSteps] at h
  cases hfind : (correlateNetworkStates evs).find? (fun s => s.clickEventId.isNone) with
  | none =>
    rw [hfind] at h
    dsimp only at h
    cases hw : walkSteps up (correlateNetworkStates evs) evs 1 with
    | error err => rw [hw] at h; cases h
    | ok tail =>
      rw [hw] at h
      cases h
      exact ⟨[], tail, 1, hw, rfl, by intro s hs; cases hs⟩
  | some st =>
    rw [hfind] at h
    dsimp only at h
    by_cases hemp : (!st.networkEvents.isEmpty) = true
    · rw [if_pos hemp] at h
      cases him : initialMockSteps up st.networkEvents with
      | error err => rw [him] at h; cases h
      | ok mocks =>
        rw [him] at h
        dsimp only at h
        cases hw : walkSteps up (correlateNetworkStates evs) evs 2 with
        | error err => rw [hw] at h; cases h
        | ok tail =>
          rw [hw] at h
          cases h
          refine ⟨[Step.initialHeader 1] ++ mocks ++ [Step.initialClose], tail, 2, hw, rfl, ?_⟩
          intro s hs
          simp only [List.mem_append, List.mem_cons, List.mem_singleton,
            List.not_mem_nil, or_false] at hs
          rcases hs with (rfl | hs) | rfl
          · rfl
          · obtain ⟨r, c, rfl⟩ := initialMockSteps_shape up st.networkEvents mocks him s hs
            rfl
          · rfl
    · rw [if_neg hemp] at h
      dsimp only at h
      cases hw : walkSteps up (correlateNetworkStates evs) evs 1 with
      | error err => rw [hw] at h; cases h
      | ok tail =>
        rw [hw] at h
        cases h
        exact ⟨[], tail, 1, hw, rfl, by intro s hs; cases hs⟩

/-- Claim C8: for every assertion event of the walked sequence, the
generated test source contains the step
`expect(await screen.findByTestId('<targetId>')).toHaveTextContent('<text>')`
— an async-wait element lookup asserting the element's text content against
exactly the recorded `elementText` (with single quotes escaped for the
emitted string literal) — and the emitted test source is assembled from
exactly these rendered steps. -/
theorem claim_C8_assertion_step (up : UrlParse) (evs : List CombinedEvent)
    (testName componentName describeLabel code : String)
    (h : generateTestCode up evs testName componentName describeLabel = .ok code)
    (e : CombinedEvent) (he : e ∈ evs) (ht : e.type = .assertion) :
    ∃ k steps, genSteps up componentName evs = .ok steps ∧
      Step.assertStep k e.testId e.elementText ∈ steps ∧
      ("\n    // Step " ++ toString k ++ ": Assert " ++ e.testId ++
        " text content\n    expect(await screen.findByTestId('" ++ e.testId ++
        "')).toHaveTextContent('" ++ escapeSingleQuotes e.elementText ++ "')") ∈
        steps.map renderStep ∧
      code = String.intercalate "\n" (testImports componentName) ++
        "\n\ndescribe('" ++ describeLabel ++ "', () => \x7b\n  beforeEach(() => \x7b\n    server.listen()\n  \x7d)\n\n  afterEach(() => \x7b\n    server.resetHandlers()\n  \x7d)\n\n  afterAll(() => \x7b\n    server.close()\n  \x7d)\n\n  test('" ++ testName ++ "', async () => \x7b\n" ++
        String.intercalate "\n" (steps.map renderStep) ++ "\n  \x7d)\n\x7d)" := by
  rw [generateTestCode] at h
  cases hg : genSteps up componentName evs with
  | error err => rw [hg] at h; cases h
  | ok steps =>
    rw [hg] at h
    cases h
    obtain ⟨iniSteps, tail, startN, hw, hsteps, -⟩ :=
      genSteps_decomp up componentName evs steps hg
    obtain ⟨k, hk⟩ := walkSteps_assert_mem up (correlateNetworkStates evs) evs startN tail hw e he ht
    refine ⟨k, steps, rfl, ?_, ?_, rfl⟩
    · rw [hsteps]
      simp only [List.mem_append]
      exact Or.inr hk
    · have hmem : Step.assertStep k e.testId e.elementText ∈ steps := by
        rw [hsteps]
        simp only [List.mem_append]
        exact Or.inr hk
      exact List.mem_map.mpr ⟨Step.assertStep k e.testId e.elementText, hmem, rfl⟩

/-- A recorded assertion event on target `user-name` with text `John Doe`
(Scenario 2 of the specification). -/
def assertEv : CombinedEvent where
  id := .num 7
  timestamp := 50
  testId := "user-name"
  elementText := "John Doe"
  tagName := "span"
  elementType := none
  type := .assertion
  method := none
  url := none
  request := none
  response := none
  status := none
  error := none
  key := none
  code := none
  ctrlKey := none
  shiftKey := none
  altKey := none
  metaKey := none
  keyboardSequence := none

/-- The test source generated for the single-assertion fixture. -/
def demoAssertCode : String :=
  match generateTestCode upNone [assertEv] "t" "MyComp" "D" with
  | .ok s => s
  | .error _ => ""

/-- Witness for claim C8 on the single-assertion fixture. -/
theorem claim_C8_witness :
    generateTestCode upNone [assertEv] "t" "MyComp" "D" = .ok demoAssertCode ∧
    assertEv ∈ [assertEv] ∧
    assertEv.type = .assertion ∧
    (∃ k steps, genSteps upNone "MyComp" [assertEv] = .ok steps ∧
      Step.assertStep k assertEv.testId assertEv.elementText ∈ steps ∧
      ("\n    // Step " ++ toString k ++ ": Assert " ++ assertEv.testId ++
        " text content\n    expect(await screen.findByTestId('" ++ assertEv.testId ++
        "')).toHaveTextContent('" ++ escapeSingleQuotes assertEv.elementText ++ "')") ∈
        steps.map renderStep ∧
      demoAssertCode = String.intercalate "\n" (testImports "MyComp") ++
        "\n\ndescribe('" ++ "D" ++ "', () => \x7b\n  beforeEach(() => \x7b\n    server.listen()\n  \x7d)\n\n  afterEach(() => \x7b\n    server.resetHandlers()\n  \x7d)\n\n  afterAll(() => \x7b\n    server.close()\n  \x7d)\n\n  test('" ++ "t" ++ "', async () => \x7b\n" ++
        String.intercalate "\n" (steps.map renderStep) ++ "\n  \x7d)\n\x7d)") :=
  ⟨rfl, List.Mem.head _, rfl,
    claim_C8_assertion_step upNone [assertEv] "t" "MyComp" "D" demoAssertCode rfl
      assertEv (List.Mem.head _) rfl⟩

/-- The per-click override steps are all `clickMock` steps tagged with that
click's id. -/
theorem clickMockSteps_shape (up : UrlParse) (cid : String) :
    ∀ (l : List CombinedEvent) (steps : List Step), clickMockSteps up cid l = .ok steps →
      ∀ s ∈ steps, ∃ r, s = Step.clickMock cid r := by
  intro l
  induction l with
  | nil =>
    intro steps h s hs
    simp only [clickMockSteps] at h
    cases h
    cases hs
  | cons e rest ih =>
    intro steps h s hs
    simp only [clickMockSteps] at h
    cases hmk : mkInstallRec up e with
    | error err => rw [hmk] at h; cases h
    | ok r =>
      rw [hmk] at h
      cases hrec : clickMockSteps up cid rest with
      | error err => rw [hrec] at h; cases h
      | ok tail =>
        rw [hrec] at h
        cases h
        rcases List.mem_cons.mp hs with rfl | hs'
        · exact ⟨r, rfl⟩
        · exact ih tail hrec s hs'

/-- The event walk never emits a step of the initial installation block. -/
theorem walkSteps_no_initial (up : UrlParse) (states : List NetworkState) :
    ∀ (evs : List CombinedEvent) (n : Nat) (steps : List Step),
      walkSteps up states evs n = .ok steps →
      ∀ s ∈ steps, isInitialInstall s = false := by
  intro evs
  induction evs with
  | nil =>
    intro n steps h s hs
    simp only [walkSteps] at h
    cases h
    cases hs
  | cons f rest ih =>
    intro n steps h s hs
    simp only [walkSteps] at h
    cases hft : f.type
    case click =>
      rw [hft] at h
      dsimp only at h
      cases hfind : states.find? (fun s => s.clickEventId == some f.id.render) with
      | none =>
        rw [hfind] at h
        dsimp only at h
        cases hw : walkSteps up states rest (n + 1) with
        | error err => rw [hw] at h; cases h
        | ok tail =>
          rw [hw] at h
          cases h
          rcases List.mem_cons.mp hs with rfl | hs'
          · rfl
          · exact ih (n + 1) tail hw s hs'
      | some st =>
        rw [hfind] at h
        dsimp only at h
        by_cases hemp : (!st.networkEvents.isEmpty) = true
        · rw [if_pos hemp] at h
          cases hcm : clickMockSteps up f.id.render st.networkEvents with
          | error err => rw [hcm] at h; cases h
          | ok mocks =>
            rw [hcm] at h
            cases hw : walkSteps up states rest (n + 2) with
            | error err => rw [hw] at h; cases h
            | ok tail =>
              rw [hw] at h
              cases h
              have hcases : s = Step.clickMockHeader n f.id.render f.testId ∨ s ∈ mocks ∨
                  s = Step.clickStep (n + 1) f.id.render f.testId ∨ s ∈ tail := by
                simp only [List.mem_append, List.mem_cons, List.mem_singleton,
                  List.not_mem_nil, or_false] at hs
                tauto
              rcases hcases with rfl | hm | rfl | ht2
              · rfl
              · obtain ⟨r, rfl⟩ := clickMockSteps_shape up f.id.render st.networkEvents mocks hcm s hm
                rfl
              · rfl
              · exact ih (n + 2) tail hw s ht2
        · rw [if_neg hemp] at h
          cases hw : walkSteps up states rest (n + 1) with
          | error err => rw [hw] at h; cases h
          | ok tail =>
            rw [hw] at h
            cases h
            rcases List.mem_cons.mp hs with rfl | hs'
            · rfl
            · exact ih (n + 1) tail hw s hs'
    case assertion =>
      rw [hft] at h
      dsimp only at h
      cases hw : walkSteps up states rest (n + 1) with
      | error err => rw [hw] at h; cases h
      | ok tail =>
        rw [hw] at h
        cases h
        rcases List.mem_cons.mp hs with rfl | hs'
        · rfl
        · exact ih (n + 1) tail hw s hs'
    case keyboard =>
      rw [hft] at h
      dsimp only at h
      cases hw : walkSteps up states rest (n + 1) with
      | error err => rw [hw] at h; cases h
      | ok tail =>
        rw [hw] at h
        cases h
        rcases List.mem_cons.mp hs with rfl | hs'
        · rfl
        · exact ih (n + 1) tail hw s hs'
    case networkRequest =>
      rw [hft] at h
      dsimp only at h
      exact ih n steps h s hs
    case networkResponse =>
      rw [hft] at h
      dsimp only at h
      exact ih n steps h s hs
    case networkError =>
      rw [hft] at h
      dsimp only at h
      exact ih n steps h s hs

/-- For every click event of the walk whose associated network state (the
state found for its id) is non-empty, the walk's output contains the
contiguous block `mock header :: override steps ++ [click-replay step]` —
the overrides of exactly that state, immediately before that click's replay
step. -/
theorem walkSteps_click_block (up : UrlParse) (states : List NetworkState) :
    ∀ (evs : List CombinedEvent) (n : Nat) (steps : List Step),
      walkSteps up states evs n = .ok steps →
      ∀ e ∈ evs, e.type = .click →
      ∀ st, states.find? (fun s => s.clickEventId == some e.id.render) = some st →
      st.networkEvents ≠ [] →
      ∃ m k mocks, clickMockSteps up e.id.render st.networkEvents = .ok mocks ∧
        ([Step.clickMockHeader m e.id.render e.testId] ++ mocks ++
          [Step.clickStep k e.id.render e.testId]) <:+: steps := by
  intro evs
  induction evs with
  | nil =>
    intro n steps h e he
    cases he
  | cons f rest ih =>
    intro n steps h e he ht st hfind hne
    simp only [walkSteps] at h
    rcases List.mem_cons.mp he with rfl | he'
    · rw [ht] at h
      dsimp only at h
      rw [hfind] at h
      dsimp only at h
      have hemp : (!st.networkEvents.isEmpty) = true := by
        cases hne2 : st.networkEvents with
        | nil => exact absurd hne2 hne
        | cons a l => rfl
      rw [if_pos hemp] at h
      cases hcm : clickMockSteps up e.id.render st.networkEvents with
      | error err => rw [hcm] at h; cases h
      | ok mocks =>
        rw [hcm] at h
        cases hw : walkSteps up states rest (n + 2) with
        | error err => rw [hw] at h; cases h
        | ok tail =>
          rw [hw] at h
          cases h
          refine ⟨n, n + 1, mocks, rfl, [], tail, ?_⟩
          simp
    · have hlift : ∀ (pre tail : List Step),
          steps = pre ++ tail →
          (∃ m k mocks, clickMockSteps up e.id.render st.networkEvents = .ok mocks ∧
            ([Step.clickMockHeader m e.id.render e.testId] ++ mocks ++
              [Step.clickStep k e.id.render e.testId]) <:+: tail) →
          ∃ m k mocks, clickMockSteps up e.id.render st.networkEvents = .ok mocks ∧
            ([Step.clickMockHeader m e.id.render e.testId] ++ mocks ++
              [Step.clickStep k e.id.render e.testId]) <:+: steps := by
        rintro pre tail rfl ⟨m, k, mocks, hcm, hinf⟩
        exact ⟨m, k, mocks, hcm, hinf.trans ⟨pre, [], by simp⟩⟩
      cases hft : f.type
      case click =>
        rw [hft] at h
        dsimp only at h
        cases hfindf : states.find? (fun s => s.clickEventId == some f.id.render) with
        | none =>
          rw [hfindf] at h
          dsimp only at h
          cases hw : walkSteps up states rest (n + 1) with
          | error err => rw [hw] at h; cases h
          | ok tail =>
            rw [hw] at h
            cases h
            exact hlift [Step.clickStep n f.id.render f.testId] tail rfl
              (ih (n + 1) tail hw e he' ht st hfind hne)
        | some stf =>
          rw [hfindf] at h
          dsimp only at h
          by_cases hemp : (!stf.networkEvents.isEmpty) = true
          · rw [if_pos hemp] at h
            cases hcm : clickMockSteps up f.id.render stf.networkEvents with
            | error err => rw [hcm] at h; cases h
            | ok mocks =>
              rw [hcm] at h
              cases hw : walkSteps up states rest (n + 2) with
              | error err => rw [hw] at h; cases h
              | ok tail =>
                rw [hw] at h
                cases h
                refine hlift ([Step.clickMockHeader n f.id.render f.testId] ++ mocks ++
                  [Step.clickStep (n + 1) f.id.render f.testId]) tail (by simp)
                  (ih (n + 2) tail hw e he' ht st hfind hne)
          · rw [if_neg hemp] at h
            cases hw : walkSteps up states rest (n + 1) with
            | error err => rw [hw] at h; cases h
            | ok tail =>
              rw [hw] at h
              cases h
              exact hlift [Step.clickStep n f.id.render f.testId] tail rfl
                (ih (n + 1) tail hw e he' ht st hfind hne)
      case assertion =>
        rw [hft] at h
        dsimp only at h
        cases hw : walkSteps up states rest (n + 1) with
        | error err => rw [hw] at h; cases h
        | ok tail =>
          rw [hw] at h
          cases h
          exact hlift [Step.assertStep n f.testId f.elementText] tail rfl
            (ih (n + 1) tail hw e he' ht st hfind hne)
      case keyboard =>
        rw [hft] at h
        dsimp only at h
        cases hw : walkSteps up states rest (n + 1) with
        | error err => rw [hw] at h; cases h
        | ok tail =>
          rw [hw] at h
          cases h
          exact hlift [Step.keyboardStep n f.testId (kbText f)] tail rfl
            (ih (n + 1) tail hw e he' ht st hfind hne)
      case networkRequest =>
        rw [hft] at h
        dsimp only at h
        exact hlift [] steps rfl (ih n steps h e he' ht st hfind hne)
      case networkResponse =>
        rw [hft] at h
        dsimp only at h
        exact hlift [] steps rfl (ih n steps h e he' ht st hfind hne)
      case networkError =>
        rw [hft] at h
        dsimp only at h
        exact hlift [] steps rfl (ih n steps h e he' ht st hfind hne)

/-- A step of the initial installation block is never an interaction step. -/
theorem initial_not_interaction (s : Step) (h : isInitialInstall s = true) :
    isInteraction s = false := by
  cases s <;> first | rfl | cases h

/-- Claim C7: in the generated step list, (a) for every click event whose
associated NetworkState (the state found for its id) is non-empty, the
mock-installation block for that state — its header and one `server.use`
override per response of the state — forms a contiguous block ending in that
click's replay step, so every mock-installation step for the state sits at a
strictly smaller step index than the click-replay step; and (b) every step
of the initial mock-installation block (emitted only when the initial state
is non-empty) sits at a strictly smaller index than every interaction step
(click replay, assertion, keyboard). -/
theorem claim_C7_mocks_before_click (up : UrlParse) (componentName : String)
    (evs : List CombinedEvent) (steps : List Step)
    (h : genSteps up componentName evs = .ok steps) :
    (∀ e ∈ evs, e.type = .click →
      ∀ st, (correlateNetworkStates evs).find? (fun s => s.clickEventId == some e.id.render) = some st →
      st.networkEvents ≠ [] →
      ∃ m k mocks, clickMockSteps up e.id.render st.networkEvents = .ok mocks ∧
        ([Step.clickMockHeader m e.id.render e.testId] ++ mocks ++
          [Step.clickStep k e.id.render e.testId]) <:+: steps) ∧
    (∀ (i j : Nat) (si sj : Step), steps[i]? = some si → steps[j]? = some sj →
      isInitialInstall si = true → isInteraction sj = true → i < j) := by
  obtain ⟨iniSteps, tail, startN, hw, hsteps, hini⟩ :=
    genSteps_decomp up componentName evs steps h
  constructor
  · intro e he ht st hfind hne
    obtain ⟨m, k, mocks, hcm, hinf⟩ :=
      walkSteps_click_block up (correlateNetworkStates evs) evs startN tail hw e he ht st hfind hne
    exact ⟨m, k, mocks, hcm, hinf.trans ⟨[Step.setup componentName] ++ iniSteps, [],
      by rw [hsteps]; simp⟩⟩
  · intro i j si sj hsi hsj hinit hinter
    subst hsteps
    set pre := [Step.setup componentName] ++ iniSteps with hpre
    have hilt : i < pre.length := by
      by_contra hge
      push_neg at hge
      rw [List.getElem?_append_right hge] at hsi
      have : si ∈ tail := List.getElem?_mem hsi
      have := walkSteps_no_initial up (correlateNetworkStates evs) evs startN tail hw si this
      rw [hinit] at this
      cases this
    have hjge : pre.length ≤ j := by
      by_contra hlt
      push_neg at hlt
      rw [List.getElem?_append, if_pos hlt] at hsj
      have hmem : sj ∈ pre := List.getElem?_mem hsj
      rcases List.mem_cons.mp hmem with rfl | hmem'
      · cases hinter
      · have := initial_not_interaction sj (hini sj hmem')
        rw [hinter] at this
        cases this
    exact Nat.lt_of_lt_of_le hilt hjge

/-- A recorded click on `submit-button` (merged form). -/
def clickEv : CombinedEvent where
  id := .num 1
  timestamp := 10
  testId := "submit-button"
  elementText := "Submit"
  tagName := "button"
  elementType := none
  type := .click
  method := none
  url := none
  request := none
  response := none
  status := none
  error := none
  key := none
  code := none
  ctrlKey := none
  shiftKey := none
  altKey := none
  metaKey := none
  keyboardSequence := none

/-- A response arriving after the click (merged form). -/
def respEv : CombinedEvent where
  id := .str "req-1"
  timestamp := 20
  testId := ""
  elementText := ""
  tagName := ""
  elementType := none
  type := .networkResponse
  method := some "POST"
  url := some "https://api.example.com/submit"
  request := some ⟨some "\x7b\"data\":\"test\"\x7d"⟩
  response := some ⟨.obj [("success", .bool true)], none⟩
  status := some 201
  error := none
  key := none
  code := none
  ctrlKey := none
  shiftKey := none
  altKey := none
  metaKey := none
  keyboardSequence := none

/-- The step list generated for the click-then-response fixture. -/
def demoC7Steps : List Step :=
  match genSteps upDemo "MyComp" [clickEv, respEv] with
  | .ok s => s
  | .error _ => []

/-- Witness for claim C7 on the click-then-response fixture. -/
theorem claim_C7_witness :
    genSteps upDemo "MyComp" [clickEv, respEv] = .ok demoC7Steps ∧
    ((∀ e ∈ [clickEv, respEv], e.type = .click →
      ∀ st, (correlateNetworkStates [clickEv, respEv]).find?
          (fun s => s.clickEventId == some e.id.render) = some st →
      st.networkEvents ≠ [] →
      ∃ m k mocks, clickMockSteps upDemo e.id.render st.networkEvents = .ok mocks ∧
        ([Step.clickMockHeader m e.id.render e.testId] ++ mocks ++
          [Step.clickStep k e.id.render e.testId]) <:+: demoC7Steps) ∧
     (∀ (i j : Nat) (si sj : Step), demoC7Steps[i]? = some si → demoC7Steps[j]? = some sj →
       isInitialInstall si = true → isInteraction sj = true → i < j)) :=
  ⟨rfl, claim_C7_mocks_before_click upDemo "MyComp" [clickEv, respEv] demoC7Steps rfl⟩

/-- The merger's comparison is transitive. -/
theorem tsLE_trans : ∀ (a b c : CombinedEvent), tsLE a b → tsLE b c → tsLE a c := by
  intro a b c
  simp only [tsLE, decide_eq_true_eq]
  omega

/-- The merger's comparison is total. -/
theorem tsLE_total : ∀ (a b : CombinedEvent), tsLE a b || tsLE b a := by
  intro a b
  simp only [tsLE, Bool.or_eq_true, decide_eq_true_eq]
  omega

/-- Claim C6: the merged sequence is a permutation of the mapped interaction
events followed by the mapped network events (every input event occurs
exactly once — no drops, no deduplication), it is sorted by timestamp
ascending (interaction timestamps having been normalized to epoch
milliseconds by `norm`), and it is stable: at every timestamp `t` the merged
subsequence equals the input subsequence at `t` — so equal-timestamp events
keep their relative input order, with interaction events (listed first in
the concatenation) before network events. -/
theorem claim_C6_merge_stable_sorted (norm : String → Int)
    (eventHistory : List EventHistoryItem) (networkHistory : List NetworkHistoryItem) :
    (mergeEvents norm eventHistory networkHistory).Perm
      (eventHistory.map (interToCombined norm) ++ networkHistory.map netToCombined) ∧
    (mergeEvents norm eventHistory networkHistory).Pairwise
      (fun a b => a.timestamp ≤ b.timestamp) ∧
    (∀ t : Int,
      (mergeEvents norm eventHistory networkHistory).filter (fun e => e.timestamp == t) =
        (eventHistory.map (interToCombined norm) ++ networkHistory.map netToCombined).filter
          (fun e => e.timestamp == t)) := by
  have hperm : (mergeEvents norm eventHistory networkHistory).Perm
      (eventHistory.map (interToCombined norm) ++ networkHistory.map netToCombined) :=
    List.mergeSort_perm _ tsLE
  refine ⟨hperm, ?_, ?_⟩
  · have := List.sorted_mergeSort tsLE_trans tsLE_total
      (eventHistory.map (interToCombined norm) ++ networkHistory.map netToCombined)
    exact this.imp (fun hab => by simpa [tsLE] using hab)
  · intro t
    set input := eventHistory.map (interToCombined norm) ++ networkHistory.map netToCombined with hinput
    set c := input.filter (fun e => e.timestamp == t) with hc
    have hmemc : ∀ a ∈ c, a.timestamp = t := by
      intro a ha
      have := (List.mem_filter.mp ha).2
      simpa using this
    have hpair : c.Pairwise (fun a b => tsLE a b = true) := by
      refine List.pairwise_of_forall_mem_list ?_
      intro a ha b hb
      simp only [tsLE, decide_eq_true_eq, hmemc a ha, hmemc b hb]
      exact le_refl t
    have hsub : List.Sublist c input := List.filter_sublist _
    have hstable : List.Sublist c (mergeEvents norm eventHistory networkHistory) :=
      List.sublist_mergeSort tsLE_trans tsLE_total hpair hsub
    have h1 : c.filter (fun e => e.timestamp == t) = c :=
      List.filter_eq_self.mpr (fun a ha => by simp [hmemc a ha])
    have h2 : List.Sublist c ((mergeEvents norm eventHistory networkHistory).filter (fun e => e.timestamp == t)) := by
      have := hstable.filter (fun e => e.timestamp == t)
      rwa [h1] at this
    have h3 : ((mergeEvents norm eventHistory networkHistory).filter
        (fun e => e.timestamp == t)).Perm c := hperm.filter _
    exact (h2.eq_of_length h3.length_eq.symm).symm

/-! ## Specification-side restatement of the Network Correlator -/

/-- Negation of the click test, used to slice the merged sequence. -/
def notClick (e : CombinedEvent) : Bool := !(isClick e)

/-- The response events of a segment. -/
def responsesOf (l : List CombinedEvent) : List CombinedEvent := l.filter isResponse

/-- The timestamp of the first click of a segment (`Infinity`, i.e. `none`,
when no click follows). -/
def nextClickTs (l : List CombinedEvent) : Option Int :=
  match l.dropWhile notClick with
  | [] => none
  | c :: _ => some c.timestamp

/-- The per-click segmentation of the merged sequence, following the spec's
correlation-invariant wording: each click is paired with the events lying
strictly after it and strictly before the next click (or the end of the
sequence), together with the next click's timestamp. -/
def clickSegs : List CombinedEvent → List (CombinedEvent × List CombinedEvent × Option Int)
  | [] => []
  | e :: rest =>
    if isClick e then (e, rest.takeWhile notClick, nextClickTs rest) :: clickSegs rest
    else clickSegs rest

/-- Specification-side correlation (modelled from the spec's correlation
invariant, to be compared with the source's `correlateNetworkStates`): the
responses occurring before the first click form the initial (null-id) state
when non-empty, and each click's state holds exactly the response events
positioned strictly between that click and the next click (or the end);
request and error events are never placed in any state. -/
def correlateSpec (evs : List CombinedEvent) : List NetworkState :=
  let pre := responsesOf (evs.takeWhile notClick)
  (if !pre.isEmpty then [⟨none, pre, nextClickTs evs⟩] else []) ++
    (clickSegs evs).map (fun x => ⟨some x.1.id.render, responsesOf x.2.1, x.2.2⟩)

/-- The tail phase of the correlation loop, after the first click has been
seen: states emitted so far, the final current click and its accumulator. -/
def phase2Go (c : CombinedEvent) (cne : List CombinedEvent) :
    List CombinedEvent → List NetworkState × CombinedEvent × List CombinedEvent
  | [] => ([], c, cne)
  | e :: rest =>
    if isClick e then
      let r := phase2Go e [] rest
      (⟨some c.id.render, cne, some e.timestamp⟩ :: r.1, r.2)
    else if isResponse e then phase2Go c (cne ++ [e]) rest
    else phase2Go c cne rest

/-- The head of a `dropWhile` result falsifies the predicate. -/
theorem dropWhile_head_false (p : CombinedEvent → Bool) :
    ∀ (l : List CombinedEvent) (x : CombinedEvent) (xs : List CombinedEvent),
      l.dropWhile p = x :: xs → p x = false := by
  intro l
  induction l with
  | nil => intro x xs h; cases h
  | cons a l ih =>
    intro x xs h
    rw [List.dropWhile_cons] at h
    by_cases hp : p a = true
    · rw [if_pos hp] at h
      exact ih x xs h
    · rw [if_neg hp] at h
      cases h
      exact Bool.eq_false_iff.mpr hp

/-- `clickSegs` ignores a click-free prefix. -/
theorem clickSegs_append_left :
    ∀ (pre l : List CombinedEvent), (∀ e ∈ pre, isClick e = false) →
      clickSegs (pre ++ l) = clickSegs l := by
  intro pre
  induction pre with
  | nil => intro l _; rfl
  | cons a pre ih =>
    intro l hpre
    rw [List.cons_append, clickSegs, if_neg (by simp [hpre a (List.mem_cons_self a pre)])]
    exact ih l (fun e he => hpre e (List.mem_cons_of_mem a he))

/-- `findIdx?` over a falsifying prefix followed by a satisfying element. -/
theorem findIdx?_skip_front (p : CombinedEvent → Bool) :
    ∀ (pre : List CombinedEvent) (c : CombinedEvent) (rest : List CombinedEvent),
      (∀ e ∈ pre, p e = false) → p c = true →
      (pre ++ c :: rest).findIdx? p = some pre.length := by
  intro pre
  induction pre with
  | nil =>
    intro c rest _ hc
    simp [List.findIdx?_cons, hc]
  | cons a pre ih =>
    intro c rest hpre hc
    rw [List.cons_append, List.findIdx?_cons,
      if_neg (by simp [hpre a (List.mem_cons_self a pre)]), List.findIdx?_succ,
      ih c rest (fun e he => hpre e (List.mem_cons_of_mem a he)) hc]
    rfl

/-- Phase-2 characterization of the correlation loop: once a current click
exists and the scan index has passed the first click, the loop behaves as
`phase2Go`: every response joins the current click's accumulator, every
click closes out a state, and the initial bucket never grows. -/
theorem corrLoop_phase2 (k : Nat) :
    ∀ (rest : List CombinedEvent) (i : Nat) (c : CombinedEvent)
      (cne ine : List CombinedEvent) (ns : List NetworkState), k < i →
      corrLoop (some k) i (some c) cne ine ns rest =
        ⟨some (phase2Go c cne rest).2.1, (phase2Go c cne rest).2.2, ine,
          ns ++ (phase2Go c cne rest).1⟩ := by
  intro rest
  induction rest with
  | nil =>
    intro i c cne ine ns hk
    simp [corrLoop, phase2Go]
  | cons e rest ih =>
    intro i c cne ine ns hk
    by_cases hce : isClick e = true
    · rw [corrLoop, if_pos hce, phase2Go, if_pos hce]
      rw [ih (i + 1) e [] ine _ (Nat.lt_succ_of_lt hk)]
      simp
    · by_cases hre : isResponse e = true
      · rw [corrLoop, if_neg hce, if_pos hre]
        have hlt : beforeFirstClick (some k) i = false := by
          simp only [beforeFirstClick, decide_eq_false_iff_not]
          omega
        simp only [hlt, Bool.false_eq_true, if_false, Option.isSome_some, if_true]
        rw [phase2Go, if_neg hce, if_pos hre]
        exact ih (i + 1) c (cne ++ [e]) ine ns (Nat.lt_succ_of_lt hk)
      · rw [corrLoop, if_neg hce, if_neg hre, phase2Go, if_neg hce, if_neg hre]
        exact ih (i + 1) c cne ine ns (Nat.lt_succ_of_lt hk)

/-- Closing out `phase2Go` with the final (`Infinity`) state yields exactly
the per-click segment states of the scanned suffix, headed by the current
click's state. -/
theorem phase2Go_spec :
    ∀ (rest : List CombinedEvent) (c : CombinedEvent) (cne : List CombinedEvent),
      (phase2Go c cne rest).1 ++
        [⟨some ((phase2Go c cne rest).2.1.id.render), (phase2Go c cne rest).2.2, none⟩] =
      ⟨some c.id.render, cne ++ responsesOf (rest.takeWhile notClick), nextClickTs rest⟩ ::
        (clickSegs rest).map (fun x => ⟨some x.1.id.render, responsesOf x.2.1, x.2.2⟩) := by
  intro rest
  induction rest with
  | nil =>
    intro c cne
    simp [phase2Go, responsesOf, nextClickTs, clickSegs]
  | cons e rest ih =>
    intro c cne
    by_cases hce : isClick e = true
    · have hnc : notClick e = false := by simp [notClick, hce]
      rw [phase2Go, if_pos hce]
      simp only [List.cons_append]
      rw [ih e []]
      rw [clickSegs, if_pos hce]
      rw [List.takeWhile_cons, hnc]
      simp only [Bool.false_eq_true, if_false]
      rw [show nextClickTs (e :: rest) = some e.timestamp from by
        simp [nextClickTs, List.dropWhile_cons, hnc]]
      simp [responsesOf]
    · have hnc : notClick e = true := by simp [notClick, hce]
      have hseg : clickSegs (e :: rest) = clickSegs rest := by
        rw [clickSegs, if_neg hce]
      have hnext : nextClickTs (e :: rest) = nextClickTs rest := by
        simp [nextClickTs, List.dropWhile_cons, hnc]
      by_cases hre : isResponse e = true
      · rw [phase2Go, if_neg hce, if_pos hre]
        rw [ih c (cne ++ [e])]
        rw [hseg, hnext, List.takeWhile_cons, hnc]
        simp only [if_true]
        rw [show responsesOf (e :: rest.takeWhile notClick) =
          e :: responsesOf (rest.takeWhile notClick) from by simp [responsesOf, hre]]
        simp
      · rw [phase2Go, if_neg hce, if_neg hre]
        rw [ih c cne]
        rw [hseg, hnext, List.takeWhile_cons, hnc]
        simp only [if_true]
        rw [show responsesOf (e :: rest.takeWhile notClick) =
          responsesOf (rest.takeWhile notClick) from by simp [responsesOf, hre]]

/-- Phase-1 characterization of the correlation loop: over a click-free
prefix whose indices all lie before the first click, every response goes to
the initial bucket and nothing else changes. -/
theorem corrLoop_phase1 :
    ∀ (pre rest2 : List CombinedEvent) (fci : Option Nat) (i : Nat)
      (ine : List CombinedEvent) (ns : List NetworkState),
      (∀ e ∈ pre, isClick e = false) →
      (match fci with
        | none => True
        | some k => i + pre.length ≤ k) →
      corrLoop fci i none [] ine ns (pre ++ rest2) =
        corrLoop fci (i + pre.length) none [] (ine ++ responsesOf pre) ns rest2 := by
  intro pre
  induction pre with
  | nil =>
    intro rest2 fci i ine ns _ _
    simp [responsesOf]
  | cons e pre ih =>
    intro rest2 fci i ine ns hpre hcond
    have hce : isClick e = false := hpre e (List.mem_cons_self e pre)
    rw [List.cons_append]
    simp only [corrLoop]
    rw [if_neg (show ¬ isClick e = true by simp [hce])]
    by_cases hre : isResponse e = true
    · have hcond2 : beforeFirstClick fci i = true := by
        cases fci with
        | none => rfl
        | some k =>
          simp only [beforeFirstClick, decide_eq_true_eq]
          simp only [List.length_cons] at hcond
          omega
      rw [if_pos hre, hcond2]
      simp only [if_true]
      rw [ih rest2 fci (i + 1) (ine ++ [e]) ns
        (fun x hx => hpre x (List.mem_cons_of_mem e hx))
        (by cases fci with
          | none => trivial
          | some k =>
            simp only [List.length_cons] at hcond
            simp only []
            omega)]
      rw [show responsesOf (e :: pre) = e :: responsesOf pre from by simp [responsesOf, hre]]
      rw [show ine ++ [e] ++ responsesOf pre = ine ++ (e :: responsesOf pre) from by simp]
      rw [show i + 1 + pre.length = i + (e :: pre).length from by simp; omega]
    · rw [if_neg hre]
      rw [ih rest2 fci (i + 1) ine ns
        (fun x hx => hpre x (List.mem_cons_of_mem e hx))
        (by cases fci with
          | none => trivial
          | some k =>
            simp only [List.length_cons] at hcond
            simp only []
            omega)]
      rw [show responsesOf (e :: pre) = responsesOf pre from by simp [responsesOf, hre]]
      rw [show i + 1 + pre.length = i + (e :: pre).length from by simp; omega]

/-- Correlator vs. specification on an explicitly split sequence: a
click-free prefix followed by the remainder. -/
theorem correlate_eq_spec_aux (pre post : List CombinedEvent)
    (hpre : ∀ e ∈ pre, isClick e = false)
    (htake : (pre ++ post).takeWhile notClick = pre)
    (hdrop : (pre ++ post).dropWhile notClick = post) :
    correlateNetworkStates (pre ++ post) = correlateSpec (pre ++ post) := by
  cases post with
  | nil =>
    have hfci : (pre ++ ([] : List CombinedEvent)).findIdx? isClick = none := by
      rw [List.findIdx?_eq_none_iff]
      intro x hx
      rw [List.append_nil] at hx
      simp [hpre x hx]
    have hloop : corrLoop none 0 none [] [] [] (pre ++ []) =
        ⟨none, [], responsesOf pre, []⟩ := by
      rw [corrLoop_phase1 pre [] none 0 [] [] hpre trivial]
      simp [corrLoop]
    have hsegs : clickSegs (pre ++ []) = [] := by
      rw [clickSegs_append_left _ _ hpre]
      rfl
    have hnext : nextClickTs (pre ++ []) = none := by
      simp only [nextClickTs]
      rw [hdrop]
    simp only [correlateNetworkStates, correlateSpec]
    rw [hfci, hloop, hsegs, hnext, htake]
    cases hemp : (responsesOf pre).isEmpty <;> simp [hemp]
  | cons c0 rest =>
    have hc0 : isClick c0 = true := by
      have := dropWhile_head_false notClick (pre ++ c0 :: rest) c0 rest hdrop
      simpa [notClick] using this
    have hfci : (pre ++ c0 :: rest).findIdx? isClick = some pre.length :=
      findIdx?_skip_front isClick pre c0 rest hpre hc0
    have hget : (pre ++ c0 :: rest).get? pre.length = some c0 := by
      rw [List.get?_eq_getElem?, List.getElem?_append_right (le_refl _)]
      simp
    have hloop : corrLoop (some pre.length) 0 none [] [] [] (pre ++ c0 :: rest) =
        ⟨some (phase2Go c0 [] rest).2.1, (phase2Go c0 [] rest).2.2, responsesOf pre,
          (phase2Go c0 [] rest).1⟩ := by
      rw [corrLoop_phase1 pre (c0 :: rest) (some pre.length) 0 [] [] hpre (by simp)]
      simp only [corrLoop]
      rw [if_pos hc0]
      rw [corrLoop_phase2 pre.length rest (0 + pre.length + 1) c0 [] _ [] (by omega)]
      simp
    have hsegs : clickSegs (pre ++ c0 :: rest) =
        (c0, rest.takeWhile notClick, nextClickTs rest) :: clickSegs rest := by
      rw [clickSegs_append_left _ _ hpre, clickSegs, if_pos hc0]
    have hnext : nextClickTs (pre ++ c0 :: rest) = some c0.timestamp := by
      simp [nextClickTs, hdrop]
    have hB := phase2Go_spec rest c0 []
    simp only [List.nil_append] at hB
    simp only [correlateNetworkStates, correlateSpec]
    rw [hfci, hloop, hsegs, hnext, htake]
    dsimp only
    rw [hget]
    dsimp only
    simp only [List.map_cons]
    cases hemp : (responsesOf pre).isEmpty
    case true =>
      simp only [Bool.not_true, Bool.false_eq_true, if_false, List.nil_append]
      rw [hB]
    case false =>
      simp only [Bool.not_false, if_true, List.cons_append, List.singleton_append]
      rw [hB]
      simp only [List.nil_append]

/-- Claim C3: the source correlator equals the specification-side
correlation: every network response placed in a click's state lies strictly
after that click and before the next click (or the end of the merged
sequence), responses before the first click form the initial (null-id)
state, and request/error events are never placed in any state. -/
theorem claim_C3_correlation (evs : List CombinedEvent) :
    correlateNetworkStates evs = correlateSpec evs := by
  have hsplit : evs.takeWhile notClick ++ evs.dropWhile notClick = evs :=
    List.takeWhile_append_dropWhile notClick evs
  have hpre : ∀ e ∈ evs.takeWhile notClick, isClick e = false := by
    intro e he
    have := List.mem_takeWhile_imp he
    simpa [notClick] using this
  calc correlateNetworkStates evs
      = correlateNetworkStates (evs.takeWhile notClick ++ evs.dropWhile notClick) := by
        rw [hsplit]
    _ = correlateSpec (evs.takeWhile notClick ++ evs.dropWhile notClick) :=
        correlate_eq_spec_aux _ _ hpre (by rw [hsplit]) (by rw [hsplit])
    _ = correlateSpec evs := by rw [hsplit]
